import Mathlib

/-!
Verification of the `tacacs-plus-rs` TACACS+ (RFC 8907) client library.

This file shallowly embeds the wire codec and client logic of the repository
into Lean: byte buffers are `List Nat` (each entry intended `< 256`), machine
integers are `Nat` with explicit `% 2^w` where overflow matters, fallible
Rust functions become `Except`-valued Lean functions, and Rust panics
(out-of-bounds indexing / `unwrap`) are modelled by an outer `Option` with
`none` for the panic.  Definitions follow the Rust source; theorems state the
specification's claims about them.
-/

namespace Tacacs

/-! ## Machine-integer helpers (u32 arithmetic as `Nat` mod 2^32) -/

/-- Two to the thirty-second power, the modulus of `u32` arithmetic. -/
def U32 : Nat := 4294967296

/-- Addition of `u32` values (wrapping, as in Rust's `u32::wrapping_add`). -/
def add32 (a b : Nat) : Nat := (a + b) % U32

/-- Bitwise complement of a `u32` value (`!x` in Rust). -/
def not32 (a : Nat) : Nat := 4294967295 - a

/-- Left rotation of a `u32` value by `s` bits (`u32::rotate_left`). -/
def rotl32 (x s : Nat) : Nat := ((x <<< s) + (x >>> (32 - s))) % U32

/-- Big-endian 4-byte encoding of a `u32` (`NetworkEndian::write_u32`). -/
def be32 (n : Nat) : List Nat :=
  [n / 16777216 % 256, n / 65536 % 256, n / 256 % 256, n % 256]

/-- Big-endian read of 4 bytes as a `u32` (`NetworkEndian::read_u32`);
out-of-range reads use 0, callers always supply exactly 4 bytes. -/
def be32read (l : List Nat) : Nat :=
  ((l.getD 0 0 * 256 + l.getD 1 0) * 256 + l.getD 2 0) * 256 + l.getD 3 0

/-- Little-endian 4-byte encoding of a `u32` (MD5 word output order). -/
def le32 (n : Nat) : List Nat :=
  [n % 256, n / 256 % 256, n / 65536 % 256, n / 16777216 % 256]

/-! ## MD5 (the `md5` crate's `Md5` hasher, RFC 1321)

The obfuscation pad of RFC 8907 §4.5 and the CHAP response are computed with
MD5.  We embed the standard single-pass MD5 over a byte list. -/

/-- The 64 MD5 sine-derived round constants. -/
def md5K : List Nat :=
  [0xd76aa478, 0xe8c7b756, 0x242070db, 0xc1bdceee, 0xf57c0faf, 0x4787c62a,
   0xa8304613, 0xfd469501, 0x698098d8, 0x8b44f7af, 0xffff5bb1, 0x895cd7be,
   0x6b901122, 0xfd987193, 0xa679438e, 0x49b40821, 0xf61e2562, 0xc040b340,
   0x265e5a51, 0xe9b6c7aa, 0xd62f105d, 0x02441453, 0xd8a1e681, 0xe7d3fbc8,
   0x21e1cde6, 0xc33707d6, 0xf4d50d87, 0x455a14ed, 0xa9e3e905, 0xfcefa3f8,
   0x676f02d9, 0x8d2a4c8a, 0xfffa3942, 0x8771f681, 0x6d9d6122, 0xfde5380c,
   0xa4beea44, 0x4bdecfa9, 0xf6bb4b60, 0xbebfbc70, 0x289b7ec6, 0xeaa127fa,
   0xd4ef3085, 0x04881d05, 0xd9d4d039, 0xe6db99e5, 0x1fa27cf8, 0xc4ac5665,
   0xf4292244, 0x432aff97, 0xab9423a7, 0xfc93a039, 0x655b59c3, 0x8f0ccc92,
   0xffeff47d, 0x85845dd1, 0x6fa87e4f, 0xfe2ce6e0, 0xa3014314, 0x4e0811a1,
   0xf7537e82, 0xbd3af235, 0x2ad7d2bb, 0xeb86d391]

/-- The 64 MD5 per-round left-rotation amounts. -/
def md5S : List Nat :=
  [7, 12, 17, 22, 7, 12, 17, 22, 7, 12, 17, 22, 7, 12, 17, 22,
   5, 9, 14, 20, 5, 9, 14, 20, 5, 9, 14, 20, 5, 9, 14, 20,
   4, 11, 16, 23, 4, 11, 16, 23, 4, 11, 16, 23, 4, 11, 16, 23,
   6, 10, 15, 21, 6, 10, 15, 21, 6, 10, 15, 21, 6, 10, 15, 21]

/-- One MD5 round step on the `(a, b, c, d)` state for round index `i`
given the 16 message words `M`. -/
def md5Step (M : List Nat) (st : Nat × Nat × Nat × Nat) (i : Nat) :
    Nat × Nat × Nat × Nat :=
  let (a, b, c, d) := st
  let fg : Nat × Nat :=
    if i < 16 then ((b &&& c) ||| (not32 b &&& d), i)
    else if i < 32 then ((d &&& b) ||| (not32 d &&& c), (5 * i + 1) % 16)
    else if i < 48 then (b ^^^ c ^^^ d, (3 * i + 5) % 16)
    else (c ^^^ (b ||| not32 d), (7 * i) % 16)
  let f := (fg.1 + a + md5K.getD i 0 + M.getD fg.2 0) % U32
  (d, add32 b (rotl32 f (md5S.getD i 0)), b, c)

/-- Convert a 64-byte MD5 block into its 16 little-endian `u32` words. -/
def md5Words : List Nat → List Nat
  | b0 :: b1 :: b2 :: b3 :: rest =>
      (b0 + 256 * b1 + 65536 * b2 + 16777216 * b3) :: md5Words rest
  | _ => []

/-- Process one 64-byte MD5 block, updating the running state. -/
def md5Block (st : Nat × Nat × Nat × Nat) (block : List Nat) :
    Nat × Nat × Nat × Nat :=
  let M := md5Words block
  let (a0, b0, c0, d0) := st
  let r := (List.range 64).foldl (md5Step M) (a0, b0, c0, d0)
  (add32 a0 r.1, add32 b0 r.2.1, add32 c0 r.2.2.1, add32 d0 r.2.2.2)

/-- MD5 padding: append `0x80`, zero bytes to 56 mod 64, then the bit length
as a little-endian 8-byte integer. -/
def md5Pad (msg : List Nat) : List Nat :=
  let n := msg.length
  let zeros := (119 - n % 64) % 64
  msg ++ [0x80] ++ List.replicate zeros 0 ++
    [8 * n % 256, 8 * n / 256 % 256, 8 * n / 65536 % 256,
     8 * n / 16777216 % 256, 8 * n / 4294967296 % 256,
     8 * n / 1099511627776 % 256, 8 * n / 281474976710656 % 256,
     8 * n / 72057594037927936 % 256]

/-- Split a padded message into 64-byte blocks (structural recursion on a
fuel argument; each block consumes at least one byte, so the message length
is always enough fuel). -/
def md5BlocksGo : Nat → List Nat → List (List Nat)
  | _, [] => []
  | 0, _ => []
  | fuel + 1, l => l.take 64 :: md5BlocksGo fuel (l.drop 64)

/-- Split a padded message into 64-byte blocks. -/
def md5Blocks (l : List Nat) : List (List Nat) :=
  md5BlocksGo l.length l

/-- The MD5 digest of a byte list, as a list of 16 bytes. -/
def md5 (msg : List Nat) : List Nat :=
  let st := (md5Blocks (md5Pad msg)).foldl md5Block
    (0x67452301, 0xefcdab89, 0x98badcfe, 0x10325476)
  le32 st.1 ++ le32 st.2.1 ++ le32 st.2.2.1 ++ le32 st.2.2.2

/-! ## Protocol field and header types (`tacacs-plus-protocol`) -/

/-- `MajorVersion`: the single RFC 8907 major version, `0xc`. -/
inductive MajorVersion
  | rfc8907
deriving DecidableEq, Repr

/-- `MinorVersion`: `Default = 0x0` or `V1 = 0x1`. -/
inductive MinorVersion
  | default
  | v1
deriving DecidableEq, Repr

/-- `Version`: a major/minor protocol version pair. -/
structure Version where
  major : MajorVersion
  minor : MinorVersion
deriving DecidableEq, Repr

/-- The `u8` encoding of a version (`impl From<Version> for u8`):
`(major << 4) | (minor & 0xf)`. -/
def Version.toByte (v : Version) : Nat :=
  (0xc <<< 4) ||| (match v.minor with | .default => 0x0 | .v1 => 0x1)

/-- `PacketFlags` (header flag byte): bit 0 = `UNENCRYPTED`,
bit 2 = `SINGLE_CONNECTION`.  Valid flag sets are exactly these two bits. -/
structure PacketFlags where
  unencrypted : Bool
  singleConnection : Bool
deriving DecidableEq, Repr

/-- `PacketFlags::bits()`: the raw flag byte. -/
def PacketFlags.bits (f : PacketFlags) : Nat :=
  (if f.unencrypted then 1 else 0) ||| (if f.singleConnection then 4 else 0)

/-- `PacketFlags::from_bits`: `none` when any bit outside the two known
flags (mask `0b101`) is set. -/
def PacketFlags.fromBits (b : Nat) : Option PacketFlags :=
  if b &&& 0xfa ≠ 0 then none
  else some ⟨b &&& 1 = 1, b &&& 4 = 4⟩

/-- `PacketType`: Authentication = 1, Authorization = 2, Accounting = 3. -/
inductive PacketType
  | authentication
  | authorization
  | accounting
deriving DecidableEq, Repr

/-- The wire byte of a packet type (its `#[repr(u8)]` discriminant). -/
def PacketType.toByte : PacketType → Nat
  | .authentication => 1
  | .authorization => 2
  | .accounting => 3

/-- `InvalidArgument`: reasons an argument is rejected. -/
inductive InvalidArgument
  | emptyName
  | nameContainsDelimiter
  | noDelimiter
  | tooLong
  | badText
deriving DecidableEq, Repr

/-- `SerializeError` from the protocol crate. -/
inductive SerializeError
  | notEnoughSpace
  | lengthOverflow
  | lengthMismatch (expected actual : Nat)
deriving DecidableEq, Repr

/-- `DeserializeError` from the protocol crate. -/
inductive DeserializeError
  | invalidStatus (b : Nat)
  | invalidPacketType (b : Nat)
  | invalidHeaderFlags (b : Nat)
  | invalidBodyFlags (b : Nat)
  | invalidVersion (b : Nat)
  | invalidArgument (reason : InvalidArgument)
  | packetTypeMismatch (expected actual : PacketType)
  | badText
  | incorrectUnencryptedFlag
  | wrongBodyBufferSize (expected bufferSize : Nat)
  | unexpectedEnd
deriving DecidableEq, Repr

/-- Decidable equality of `Except` results, for evaluating concrete
(de)serialization outcomes. -/
instance exceptDecEq {ε α : Type} [DecidableEq ε] [DecidableEq α] :
    DecidableEq (Except ε α)
  | .error e, .error f =>
    if h : e = f then .isTrue (by rw [h]) else .isFalse (by simp [h])
  | .error _, .ok _ => .isFalse (by simp)
  | .ok _, .error _ => .isFalse (by simp)
  | .ok a, .ok b =>
    if h : a = b then .isTrue (by rw [h]) else .isFalse (by simp [h])

/-- `TryFrom<u8> for Version`: major nibble must be `0xc`, minor nibble
`0` or `1`; otherwise `InvalidVersion`. -/
def Version.tryFrom (b : Nat) : Except DeserializeError Version :=
  if b >>> 4 = 0xc then
    match b &&& 0xf with
    | 0 => .ok ⟨.rfc8907, .default⟩
    | 1 => .ok ⟨.rfc8907, .v1⟩
    | _ => .error (.invalidVersion b)
  else .error (.invalidVersion b)

/-- `TryFrom<u8> for PacketType` (via `TryFromPrimitive`). -/
def PacketType.tryFrom (b : Nat) : Except DeserializeError PacketType :=
  match b with
  | 1 => .ok .authentication
  | 2 => .ok .authorization
  | 3 => .ok .accounting
  | _ => .error (.invalidPacketType b)

/-- `HeaderInfo`: the header fields a client chooses (packet type and body
length are supplied at (de)serialization time). -/
structure HeaderInfo where
  version : Version
  sequenceNumber : Nat
  flags : PacketFlags
  sessionId : Nat
deriving DecidableEq, Repr

/-- `HeaderInfo::serialize`: the 12 header bytes, given the packet type and
body length supplied by the packet body.  (The source first checks that the
destination slice holds 12 bytes; `Packet::serialize_packet` always passes a
slice of exactly 12 bytes, so that check cannot fail and we return the bytes
directly.) -/
def HeaderInfo.serialize (h : HeaderInfo) (t : PacketType) (bodyLength : Nat) :
    List Nat :=
  [h.version.toByte, t.toByte, h.sequenceNumber, h.flags.bits] ++
    be32 h.sessionId ++ be32 bodyLength

/-- `TryFrom<&[u8]> for HeaderInfo`.  The Rust code indexes the buffer at
fixed offsets 0, 2, 3 and 4..8 with no prior length check; an out-of-bounds
access (a Rust panic) is modelled as `none`.  Field initializers are
evaluated in declaration order and `?` propagates errors immediately, which
fixes the order of the bounds checks below. -/
def HeaderInfo.tryFrom (buffer : List Nat) :
    Option (Except DeserializeError HeaderInfo) :=
  if h0 : 0 < buffer.length then
    match Version.tryFrom (buffer.get ⟨0, h0⟩) with
    | .error e => some (.error e)
    | .ok v =>
      if h2 : 2 < buffer.length then
        let seq := buffer.get ⟨2, h2⟩
        if h3 : 3 < buffer.length then
          match PacketFlags.fromBits (buffer.get ⟨3, h3⟩) with
          | none => some (.error (.invalidHeaderFlags (buffer.get ⟨3, h3⟩)))
          | some flags =>
            if 8 ≤ buffer.length then
              some (.ok ⟨v, seq, flags, be32read ((buffer.drop 4).take 4)⟩)
            else none
        else none
      else none
  else none

/-! ## Body obfuscation (`xor_body_with_pad`, RFC 8907 §4.5) -/

/-- The prehashed common prefix of every pad-chunk hash:
`session id (be32) ‖ secret ‖ version byte ‖ sequence number`. -/
def padPrefixBytes (h : HeaderInfo) (secretKey : List Nat) : List Nat :=
  be32 h.sessionId ++ secretKey ++ [h.version.toByte] ++ [h.sequenceNumber]

/-- XOR two byte lists, truncating to the shorter (`xor_slices`). -/
def xorSlices (output pad : List Nat) : List Nat :=
  List.zipWith (· ^^^ ·) output pad

/-- The chunk loop of `xor_body_with_pad`: the current pad is XORed into the
next 16-byte chunk, and each following pad chunk is the MD5 of the prefix
followed by the previous pad.  The first argument is recursion fuel (each
chunk consumes at least one body byte, so `body.length` is always enough);
it exists only to make the recursion structural. -/
def xorPadChunks (pfx : List Nat) : Nat → List Nat → List Nat → List Nat
  | _, _, [] => []
  | 0, _, _ => []
  | fuel + 1, pad, body => xorSlices (body.take 16) pad ++
      xorPadChunks pfx fuel (md5 (pfx ++ pad)) (body.drop 16)

/-- `xor_body_with_pad`: obfuscate (or deobfuscate) a packet body with the
MD5-iterated pseudo-pad.  The Rust function panics (`unwrap`) on an empty
body; callers model that case separately, and this function returns `[]`
there. -/
def xorBodyWithPad (h : HeaderInfo) (secretKey : List Nat) (body : List Nat) :
    List Nat :=
  let pfx := padPrefixBytes h secretKey
  xorPadChunks pfx body.length (md5 pfx) body

/-- Byte list of an ASCII string literal, for concrete test vectors. -/
def strBytes (s : String) : List Nat := s.data.map Char.toNat

/-! ## Packet assembly (`Packet<B>` in `packet.rs`)

`Packet` is generic over its body type, bounded by the `PacketBody`,
`Serialize` (request direction) and `Deserialize`/`TryFrom<&[u8]>` (reply
direction) traits.  Each trait becomes a record of its methods, and each
packet operation takes exactly the records its Rust counterpart's bounds
demand.  In the source no body type implements both directions: `Start`,
`Continue` and the two `Request` bodies implement only `Serialize`, the
three `Reply` bodies only deserialization. -/

/-- The `PacketBody` trait: packet type and required minor version. -/
structure PacketBodyImpl (β : Type) where
  TYPE : PacketType
  requiredMinorVersion : β → Option MinorVersion

/-- The `Serialize` trait: wire size, and serialization into a buffer
slice.  A serializer returns the bytes it wrote (its buffer slice always
has exactly the packet body's wire size, sliced off by the packet layer,
so a body's own space check depends only on that size). -/
structure SerializeImpl (β : Type) where
  wireSize : β → Nat
  serializeIntoBuffer : β → Except SerializeError (List Nat)

/-- The deserialization trait (`Deserialize` / `TryFrom<&[u8]>`). -/
structure DeserializeImpl (β : Type) where
  deserializeFromBuffer : List Nat → Except DeserializeError β

/-- A full TACACS+ packet: header plus body. -/
structure Packet (β : Type) where
  header : HeaderInfo
  body : β
deriving DecidableEq, Repr

/-- `Packet::new`: assembles header and body, updating the header's minor
version to the body's required minor version when the body specifies one. -/
def Packet.new (C : PacketBodyImpl β) (header : HeaderInfo) (body : β) :
    Packet β :=
  match C.requiredMinorVersion body with
  | some minor =>
      ⟨{ header with version := { header.version with minor := minor } }, body⟩
  | none => ⟨header, body⟩

/-- `Packet::wire_size`: 12 header bytes plus the body's wire size. -/
def Packet.wireSizeOf (S : SerializeImpl β) (p : Packet β) : Nat :=
  12 + S.wireSize p.body

/-- `Packet::serialize_packet`: check the buffer holds the whole packet,
serialize the body at offset 12, then the header with the body's actual
length (which must fit in a `u32`).  Returns the resulting buffer contents
and the total number of bytes written. -/
def Packet.serializePacket (C : PacketBodyImpl β) (S : SerializeImpl β)
    (p : Packet β) (buffer : List Nat) :
    Except SerializeError (List Nat × Nat) :=
  let ws := Packet.wireSizeOf S p
  if ws ≤ buffer.length then
    match S.serializeIntoBuffer p.body with
    | .error e => .error e
    | .ok bodyBytes =>
      let bodyLength := bodyBytes.length
      if bodyLength < U32 then
        .ok (p.header.serialize C.TYPE bodyLength ++ bodyBytes ++
              buffer.drop (12 + bodyLength), 12 + bodyLength)
      else .error .lengthOverflow
  else .error .notEnoughSpace

/-- `Packet::serialize` (obfuscating): clear the `UNENCRYPTED` flag,
serialize, then XOR the body region `buffer[12..packet_length]` with the
pseudo-pad.  `none` models the `xor_body_with_pad` panic on an empty body
region. -/
def Packet.serialize (C : PacketBodyImpl β) (S : SerializeImpl β)
    (secretKey : List Nat) (p : Packet β) (buffer : List Nat) :
    Option (Except SerializeError (List Nat × Nat)) :=
  match Packet.serializePacket C S
      ⟨{ p.header with flags := { p.header.flags with unencrypted := false } },
        p.body⟩ buffer with
  | .error e => some (.error e)
  | .ok (buf, len) =>
    if ((buf.drop 12).take (len - 12)).length = 0 then none
    else some (.ok (buf.take 12 ++
      xorBodyWithPad
        { p.header with
          flags := { p.header.flags with unencrypted := false } }
        secretKey ((buf.drop 12).take (len - 12)) ++
      buf.drop len, len))

/-- `Packet::serialize_unobfuscated`: set the `UNENCRYPTED` flag and
serialize the body as cleartext. -/
def Packet.serializeUnobfuscated (C : PacketBodyImpl β) (S : SerializeImpl β)
    (p : Packet β) (buffer : List Nat) :
    Except SerializeError (List Nat × Nat) :=
  let hdr := { p.header with
    flags := { p.header.flags with unencrypted := true } }
  Packet.serializePacket C S ⟨hdr, p.body⟩ buffer

/-- `Packet::deserialize_body`: check the buffer extends past the header,
match the packet type byte, read the body length from header bytes 8..12,
check the remaining buffer holds it, and parse exactly that slice. -/
def Packet.deserializeBody (C : PacketBodyImpl β) (D : DeserializeImpl β)
    (buffer : List Nat) : Except DeserializeError β :=
  if h : 12 < buffer.length then
    match PacketType.tryFrom (buffer.get ⟨1, by omega⟩) with
    | .error e => .error e
    | .ok actual =>
      if actual = C.TYPE then
        let bodyLength := be32read ((buffer.drop 8).take 4)
        if bodyLength ≤ (buffer.drop 12).length then
          D.deserializeFromBuffer ((buffer.drop 12).take bodyLength)
        else .error .unexpectedEnd
      else .error (.packetTypeMismatch C.TYPE actual)
  else .error .unexpectedEnd

/-- `Packet::deserialize` (obfuscated direction): parse the header from
`buffer[..12]` (the slice's bounds check panics — `none` — on a shorter
buffer), reject a set `UNENCRYPTED` flag, XOR `buffer[12..]` with the
pseudo-pad (a panic — `none` — when that region is empty), then parse the
body and assemble with `Packet::new`. -/
def Packet.deserialize (C : PacketBodyImpl β) (D : DeserializeImpl β)
    (secretKey : List Nat) (buffer : List Nat) :
    Option (Except DeserializeError (Packet β)) :=
  if 12 ≤ buffer.length then
    match HeaderInfo.tryFrom (buffer.take 12) with
    | none => none
    | some (.error e) => some (.error e)
    | some (.ok header) =>
      if header.flags.unencrypted = false then
        if buffer.length ≤ 12 then none
        else
          let buffer' := buffer.take 12 ++
            xorBodyWithPad header secretKey (buffer.drop 12)
          some ((Packet.deserializeBody C D buffer').map
            (fun b => Packet.new C header b))
      else some (.error .incorrectUnencryptedFlag)
  else none

/-- `Packet::deserialize_unobfuscated`: parse the header from `buffer[..12]`
(panic — `none` — on a shorter buffer), require the `UNENCRYPTED` flag set,
then parse the cleartext body and assemble with `Packet::new`. -/
def Packet.deserializeUnobfuscated (C : PacketBodyImpl β)
    (D : DeserializeImpl β) (buffer : List Nat) :
    Option (Except DeserializeError (Packet β)) :=
  if 12 ≤ buffer.length then
    match HeaderInfo.tryFrom (buffer.take 12) with
    | none => none
    | some (.error e) => some (.error e)
    | some (.ok header) =>
      if header.flags.unencrypted = true then
        some ((Packet.deserializeBody C D buffer).map
          (fun b => Packet.new C header b))
      else some (.error .incorrectUnencryptedFlag)
  else none

/-! ## Authentication start body (`authentication.rs`, `fields.rs`) -/

/-- `authentication::Action`: Login 0x01, ChangePassword 0x02,
SendAuth 0x04. -/
inductive Action
  | login
  | changePassword
  | sendAuth
deriving DecidableEq, Repr

/-- The wire byte of an authentication action. -/
def Action.toByte : Action → Nat
  | .login => 0x01
  | .changePassword => 0x02
  | .sendAuth => 0x04

/-- `AuthenticationType`: NotSet 0x00, Ascii 0x01, Pap 0x02, Chap 0x03,
MsChap 0x05, MsChapV2 0x06. -/
inductive AuthenticationType
  | notSet
  | ascii
  | pap
  | chap
  | msChap
  | msChapV2
deriving DecidableEq, Repr

/-- The wire byte of an authentication type. -/
def AuthenticationType.toByte : AuthenticationType → Nat
  | .notSet => 0x00
  | .ascii => 0x01
  | .pap => 0x02
  | .chap => 0x03
  | .msChap => 0x05
  | .msChapV2 => 0x06

/-- `AuthenticationService`: None 0x00 through FwProxy 0x09. -/
inductive AuthenticationService
  | none
  | login
  | enable
  | ppp
  | pt
  | rcommand
  | x25
  | nasi
  | fwProxy
deriving DecidableEq, Repr

/-- The wire byte of an authentication service. -/
def AuthenticationService.toByte : AuthenticationService → Nat
  | .none => 0x00
  | .login => 0x01
  | .enable => 0x02
  | .ppp => 0x03
  | .pt => 0x05
  | .rcommand => 0x06
  | .x25 => 0x07
  | .nasi => 0x08
  | .fwProxy => 0x09

/-- `AuthenticationContext`: privilege level (0–15), authentication type
and service; 3 bytes on the wire. -/
structure AuthenticationContext where
  privilegeLevel : Nat
  authenticationType : AuthenticationType
  service : AuthenticationService
deriving DecidableEq, Repr

/-- `AuthenticationContext::serialize`: the 3 context bytes. -/
def AuthenticationContext.serializeBytes (c : AuthenticationContext) :
    List Nat :=
  [c.privilegeLevel, c.authenticationType.toByte, c.service.toByte]

/-- `UserInformation`: user, port and remote address byte strings. -/
structure UserInformation where
  user : List Nat
  port : List Nat
  remoteAddress : List Nat
deriving DecidableEq, Repr

/-- `UserInformation::wire_size`: 3 length bytes plus the three values. -/
def UserInformation.wireSize (u : UserInformation) : Nat :=
  3 + u.user.length + u.port.length + u.remoteAddress.length

/-- `UserInformation::serialize_field_lengths`: the three length bytes;
`LengthOverflow` when a field length does not fit in a `u8`. -/
def UserInformation.serializeFieldLengths (u : UserInformation) :
    Except SerializeError (List Nat) :=
  if u.user.length ≤ 255 ∧ u.port.length ≤ 255 ∧
      u.remoteAddress.length ≤ 255 then
    .ok [u.user.length, u.port.length, u.remoteAddress.length]
  else .error .lengthOverflow

/-- `UserInformation::serialize_field_values`: the three values,
contiguously. -/
def UserInformation.serializeFieldValues (u : UserInformation) : List Nat :=
  u.user ++ u.port ++ u.remoteAddress

/-- `authentication::Start`: the body initiating an authentication
session. -/
structure Start where
  action : Action
  authentication : AuthenticationContext
  userInformation : UserInformation
  data : Option (List Nat)
deriving DecidableEq, Repr

/-- `BadStart`: rejection reasons of the `Start` constructor. -/
inductive BadStart
  | dataTooLong
  | authTypeNotSet
  | incompatibleActionAndType
deriving DecidableEq, Repr

/-- `Start::action_and_type_compatible` (RFC 8907 Table 1): Ascii pairs
with Login/ChangePassword but not SendAuth; ChangePassword is invalid for
all other types; all other types pair with Login and SendAuth.  The source
marks the NotSet row `unreachable!()` since `Start::new` rejects NotSet
first; we return `false` there. -/
def Start.actionAndTypeCompatible (authType : AuthenticationType)
    (action : Action) : Bool :=
  match authType, action with
  | .ascii, .login => true
  | .ascii, .changePassword => true
  | .ascii, .sendAuth => false
  | _, .changePassword => false
  | .notSet, _ => false
  | _, _ => true

/-- `Start::new`: reject data longer than a `u8` can encode, a NotSet
authentication type, and incompatible action/type pairs, in that order. -/
def Start.new (action : Action) (authentication : AuthenticationContext)
    (userInformation : UserInformation) (data : Option (List Nat)) :
    Except BadStart Start :=
  if (match data with | some d => decide (255 < d.length) | none => false)
    then .error .dataTooLong
  else if authentication.authenticationType = AuthenticationType.notSet then
    .error .authTypeNotSet
  else if ¬Start.actionAndTypeCompatible authentication.authenticationType
      action then
    .error .incompatibleActionAndType
  else .ok ⟨action, authentication, userInformation, data⟩

/-- `Start::required_minor_version`: Ascii requires the default minor
version, every other type requires v1. -/
def Start.requiredMinorVersion (s : Start) : Option MinorVersion :=
  match s.authentication.authenticationType with
  | .ascii => some .default
  | _ => some .v1

/-- `Serialize::wire_size` for `Start`. -/
def Start.wireSize (s : Start) : Nat :=
  1 + 3 + s.userInformation.wireSize + 1 +
    (match s.data with | some d => d.length | none => 0)

/-- `Serialize::serialize_into_buffer` for `Start`: action byte, context,
user-information lengths, data length, then the user-information values and
data; finishes with the source's written-length consistency check. -/
def Start.serializeIntoBuffer (s : Start) :
    Except SerializeError (List Nat) :=
  match s.userInformation.serializeFieldLengths with
  | .error e => .error e
  | .ok lengths =>
    let values := s.userInformation.serializeFieldValues
    let dataLen := match s.data with | some d => d.length | none => 0
    if dataLen ≤ 255 then
      let totalBytesWritten := 8 + values.length + dataLen
      if totalBytesWritten = s.wireSize then
        .ok ([s.action.toByte] ++ s.authentication.serializeBytes ++
          lengths ++ [dataLen] ++ values ++
          (match s.data with | some d => d | none => []))
      else .error (.lengthMismatch s.wireSize totalBytesWritten)
    else .error .lengthOverflow

/-- `impl PacketBody for Start`. -/
def startPacketBody : PacketBodyImpl Start :=
  ⟨.authentication, Start.requiredMinorVersion⟩

/-- `impl Serialize for Start`. -/
def startSerializeImpl : SerializeImpl Start :=
  ⟨Start.wireSize, Start.serializeIntoBuffer⟩

/-! ## Arguments (`arguments.rs`)

`Argument` keeps a `(name, value, mandatory)` triple whose name and value
are `FieldText`s; here both are byte lists (ASCII validity is enforced by
the separate `FieldText` constructor and is not part of this claim's
checks). -/

/-- `Argument`: a name/value/mandatory attribute-value pair. -/
structure Argument where
  name : List Nat
  value : List Nat
  mandatory : Bool
deriving DecidableEq, Repr

/-- The byte of `'='`, the mandatory-argument delimiter. -/
def MANDATORY_DELIMITER : Nat := 61

/-- The byte of `'*'`, the optional-argument delimiter. -/
def OPTIONAL_DELIMITER : Nat := 42

/-- `Argument::new`: reject an empty name, a name containing `=` or `*`,
and a combined `name + delimiter + value` length that does not fit in a
`u8`, in that order. -/
def Argument.new (name value : List Nat) (mandatory : Bool) :
    Except InvalidArgument Argument :=
  if name.isEmpty then .error .emptyName
  else if name.contains MANDATORY_DELIMITER || name.contains OPTIONAL_DELIMITER
    then .error .nameContainsDelimiter
  else if 255 < name.length + 1 + value.length then .error .tooLong
  else .ok ⟨name, value, mandatory⟩

/-! ## Statuses and response mapping (`response.rs`, `lib.rs`, `task.rs`) -/

/-- `authentication::Status` (reply status byte values in comments):
Pass 0x01, Fail 0x02, GetData 0x03, GetUser 0x04, GetPassword 0x05,
Restart 0x06, Error 0x07, Follow 0x21. -/
inductive AuthenticationStatus
  | pass
  | fail
  | getData
  | getUser
  | getPassword
  | restart
  | error
  | follow
deriving DecidableEq, Repr

/-- `authorization::Status`: PassAdd 0x01, PassReplace 0x02, Fail 0x10,
Error 0x11, Follow 0x21. -/
inductive AuthorizationStatus
  | passAdd
  | passReplace
  | fail
  | error
  | follow
deriving DecidableEq, Repr

/-- `accounting::Status`: Success 0x01, Error 0x02, Follow 0x21. -/
inductive AccountingStatus
  | success
  | error
  | follow
deriving DecidableEq, Repr

/-- The public `ResponseStatus` returned to callers. -/
inductive ResponseStatus
  | success
  | failure
deriving DecidableEq, Repr

/-- `TryFrom<authentication::Status> for ResponseStatus`: Pass ⇒ Success;
Fail, Follow and Restart ⇒ Failure; anything else is
`BadAuthenticationStatus` carrying the status. -/
def ResponseStatus.tryFromAuthentication (s : AuthenticationStatus) :
    Except AuthenticationStatus ResponseStatus :=
  match s with
  | .pass => .ok .success
  | .fail => .ok .failure
  | .follow => .ok .failure
  | .restart => .ok .failure
  | badStatus => .error badStatus

/-- `TryFrom<authorization::Status> for ResponseStatus`: PassAdd and
PassReplace ⇒ Success; Fail and Follow ⇒ Failure; anything else is
`BadAuthorizationStatus` carrying the status. -/
def ResponseStatus.tryFromAuthorization (s : AuthorizationStatus) :
    Except AuthorizationStatus ResponseStatus :=
  match s with
  | .passAdd => .ok .success
  | .passReplace => .ok .success
  | .fail => .ok .failure
  | .follow => .ok .failure
  | badStatus => .error badStatus

/-- The status-classifying `ClientError` variants (`error.rs`; the I/O and
packet-level variants are not involved in the mapping claims). -/
inductive ClientError
  | authenticationError (status : AuthenticationStatus)
      (data userMessage : List Nat)
  | authorizationError (status : AuthorizationStatus)
      (userMessage adminMessage : List Nat)
  | accountingError (status : AccountingStatus)
      (userMessage adminMessage : List Nat)
deriving DecidableEq, Repr

/-- `AuthenticationResponse` (the reply's server message and data are passed
through). -/
structure AuthenticationResponse where
  status : ResponseStatus
  userMessage : List Nat
  data : List Nat
deriving DecidableEq, Repr

/-- `AuthorizationResponse`, including the merged argument set. -/
structure AuthorizationResponse where
  status : ResponseStatus
  arguments : List Argument
  userMessage : List Nat
  adminMessage : List Nat
deriving DecidableEq, Repr

/-- `AccountingResponse` (a successful accounting reply has no status
field). -/
structure AccountingResponse where
  userMessage : List Nat
  adminMessage : List Nat
deriving DecidableEq, Repr

/-- `merge_authorization_arguments`'s inner `iter_mut().find(..)` step:
overwrite the value of the first identically named entry, or report that
none exists. -/
def overwriteFirstValue : List Argument → Argument → Option (List Argument)
  | [], _ => none
  | s :: rest, received =>
    if s.name = received.name then
      some ({ s with value := received.value } :: rest)
    else (overwriteFirstValue rest received).map (s :: ·)

/-- `merge_authorization_arguments`: when replacing, walk the received
arguments and overwrite the value of an identically named sent entry if one
exists, otherwise append; when not replacing, append all received arguments
after the sent ones. -/
def mergeAuthorizationArguments (replacing : Bool)
    (sentArguments receivedArguments : List Argument) : List Argument :=
  if replacing then
    receivedArguments.foldl
      (fun acc received =>
        match overwriteFirstValue acc received with
        | some updated => updated
        | none => acc ++ [received])
      sentArguments
  else sentArguments ++ receivedArguments

/-- The status-and-payload mapping performed at the end of
`Client::authenticate` (lib.rs): a convertible status yields an
`AuthenticationResponse`, any other status an `AuthenticationError`
carrying it. -/
def clientAuthenticateResult (status : AuthenticationStatus)
    (userMessage data : List Nat) :
    Except ClientError AuthenticationResponse :=
  match ResponseStatus.tryFromAuthentication status with
  | .ok s => .ok ⟨s, userMessage, data⟩
  | .error bad => .error (.authenticationError bad data userMessage)

/-- The status, payload and argument-merge mapping performed at the end of
`Client::authorize` (lib.rs): a convertible status yields an
`AuthorizationResponse` whose arguments merge the sent and received sets
(replacing exactly when the status is PassReplace), any other status an
`AuthorizationError`. -/
def clientAuthorizeResult (status : AuthorizationStatus)
    (sentArguments receivedArguments : List Argument)
    (userMessage adminMessage : List Nat) :
    Except ClientError AuthorizationResponse :=
  match ResponseStatus.tryFromAuthorization status with
  | .ok s => .ok ⟨s,
      mergeAuthorizationArguments (status = AuthorizationStatus.passReplace)
        sentArguments receivedArguments,
      userMessage, adminMessage⟩
  | .error bad => .error (.authorizationError bad userMessage adminMessage)

/-- The status mapping at the end of `AccountingTask::make_request`
(task.rs): Success yields an `AccountingResponse`, any other status an
`AccountingError` carrying it. -/
def accountingMakeRequestResult (status : AccountingStatus)
    (userMessage adminMessage : List Nat) :
    Except ClientError AccountingResponse :=
  match status with
  | .success => .ok ⟨userMessage, adminMessage⟩
  | badStatus => .error (.accountingError badStatus userMessage adminMessage)

/-! ## Accounting reply body (`accounting.rs`) -/

/-- `FieldText::try_from(&[u8])` validity: the bytes decode as UTF-8 and
every character is printable ASCII (`is_ascii && !is_ascii_control`),
which for a byte list collapses to every byte lying in `0x20..=0x7e`. -/
def fieldTextValid (l : List Nat) : Bool :=
  l.all (fun b => 0x20 ≤ b && b ≤ 0x7e)

/-- Big-endian read of 2 bytes as a `u16` (`NetworkEndian::read_u16`). -/
def be16read (l : List Nat) : Nat :=
  l.getD 0 0 * 256 + l.getD 1 0

/-- `TryFrom<u8> for accounting::Status`. -/
def AccountingStatus.tryFrom (b : Nat) :
    Except DeserializeError AccountingStatus :=
  match b with
  | 0x01 => .ok .success
  | 0x02 => .ok .error
  | 0x21 => .ok .follow
  | _ => .error (.invalidStatus b)

/-- `accounting::Reply`: status, server message and data. -/
structure AccountingReply where
  status : AccountingStatus
  serverMessage : List Nat
  data : List Nat
deriving DecidableEq, Repr

/-- `Deserialize for accounting::Reply`: read the server-message and data
lengths (requiring the 5 mandatory bytes), require the buffer length to
equal the computed total, then parse status and the two `FieldText`
fields. -/
def AccountingReply.deserializeFromBuffer (buffer : List Nat) :
    Except DeserializeError AccountingReply :=
  if 5 ≤ buffer.length then
    let serverMessageLength := be16read (buffer.take 2)
    let dataLength := be16read ((buffer.drop 2).take 2)
    let totalLength := 5 + serverMessageLength + dataLength
    if totalLength = buffer.length then
      match AccountingStatus.tryFrom (buffer.getD 4 0) with
      | .error e => .error e
      | .ok status =>
        let serverMessage := (buffer.drop 5).take serverMessageLength
        let data := (buffer.drop (5 + serverMessageLength)).take dataLength
        if fieldTextValid serverMessage then
          if fieldTextValid data then .ok ⟨status, serverMessage, data⟩
          else .error .badText
        else .error .badText
    else .error (.wrongBodyBufferSize totalLength buffer.length)
  else .error .unexpectedEnd

/-- `impl PacketBody for accounting::Reply` (the default
`required_minor_version` returns `None`). -/
def accountingReplyPacketBody : PacketBodyImpl AccountingReply :=
  ⟨.accounting, fun _ => none⟩

/-- The deserialization impl for `accounting::Reply`. -/
def accountingReplyDeserializeImpl : DeserializeImpl AccountingReply :=
  ⟨AccountingReply.deserializeFromBuffer⟩

/-! ## Client inner connection bookkeeping (`inner.rs`) -/

/-- The connection-relevant state of `ClientInner`: whether a connection is
present (`connection.is_some()`), and the two single-connection-mode
flags. -/
structure ClientInner where
  connection : Bool
  firstSessionCompleted : Bool
  singleConnectionEstablished : Bool
deriving DecidableEq, Repr

/-- `ClientInner::set_internal_single_connect_status`: mark single
connection mode established only when no session has completed on this
connection, the reply's sequence number is 2, and the reply carries
`SINGLE_CONNECTION`. -/
def ClientInner.setInternalSingleConnectStatus (st : ClientInner)
    (sequenceNumber : Nat) (flags : PacketFlags) : ClientInner :=
  if ¬st.firstSessionCompleted ∧ sequenceNumber = 2 ∧
      flags.singleConnection then
    { st with singleConnectionEstablished := true }
  else st

/-- `ClientInner::post_session_cleanup`: when single connection mode is not
established or the session ended with an error status, close and drop the
connection (`take().unwrap()` panics — `none` — when none is present) and
clear both flags; otherwise record that a session completed on this
connection. -/
def ClientInner.postSessionCleanup (st : ClientInner) (statusIsError : Bool) :
    Option ClientInner :=
  if ¬st.singleConnectionEstablished ∨ statusIsError then
    if st.connection then
      some ⟨false, false, false⟩
    else none
  else if ¬st.firstSessionCompleted then
    some { st with firstSessionCompleted := true }
  else some st

/-! # Theorems -/

/-- Any buffer of at least 8 bytes is parsed by `HeaderInfo::try_from`
without an out-of-bounds access (the indexing it performs stops at offset
7). -/
lemma headerTryFrom_exists (buffer : List Nat) (h : 8 ≤ buffer.length) :
    ∃ r, HeaderInfo.tryFrom buffer = some r := by
  have h0 : 0 < buffer.length := by omega
  have h2 : 2 < buffer.length := by omega
  have h3 : 3 < buffer.length := by omega
  unfold HeaderInfo.tryFrom
  rw [dif_pos h0]
  cases Version.tryFrom (buffer.get ⟨0, h0⟩) with
  | error e => exact ⟨_, rfl⟩
  | ok v =>
    dsimp only
    rw [dif_pos h2, dif_pos h3]
    cases PacketFlags.fromBits (buffer.get ⟨3, h3⟩) with
    | none => exact ⟨_, rfl⟩
    | some fl =>
      dsimp only
      rw [if_pos h]
      exact ⟨_, rfl⟩

set_option maxRecDepth 10000 in
/-- C5: with version byte 0xC1 (major 0xC, minor 1), sequence number 7,
session id 487514234 and the secret `"no one will guess this"`, XORing the
MD5 pseudo-pad (chunks `P_0 = MD5(session_id ‖ secret ‖ version ‖ seq)`,
`P_k = MD5(… ‖ P_{k-1})`, concatenated and truncated to the body length)
into a 20-byte all-zero body yields exactly the bytes
`0D 2E D1 6F D6 37 AB 81 C1 3A C8 F9 19 B4 65 48 06 F6 5B 41`. -/
theorem c5_pseudo_pad :
    xorBodyWithPad ⟨⟨.rfc8907, .v1⟩, 7, ⟨false, false⟩, 487514234⟩
      (strBytes "no one will guess this") (List.replicate 20 0) =
    [0x0d, 0x2e, 0xd1, 0x6f, 0xd6, 0x37, 0xab, 0x81, 0xc1, 0x3a,
     0xc8, 0xf9, 0x19, 0xb4, 0x65, 0x48, 0x06, 0xf6, 0x5b, 0x41] := by
  decide

/-- C3 (corrected): status classification at the client layer.  In
authentication, Pass maps to Success and Fail, Restart, Follow map to
Failure; in authorization, PassAdd and PassReplace map to Success and —
departing from the claim, which lists only Fail as a non-error failure in
authorization — both Fail and Follow map to Failure; in accounting,
Success yields a successful response.  Every remaining status surfaces as
the error variant of its family (`AuthenticationError`,
`AuthorizationError`, `AccountingError`) carrying that status. -/
theorem c3_status_mapping :
    (∀ um d : List Nat,
      clientAuthenticateResult .pass um d = .ok ⟨.success, um, d⟩ ∧
      clientAuthenticateResult .fail um d = .ok ⟨.failure, um, d⟩ ∧
      clientAuthenticateResult .restart um d = .ok ⟨.failure, um, d⟩ ∧
      clientAuthenticateResult .follow um d = .ok ⟨.failure, um, d⟩ ∧
      clientAuthenticateResult .getData um d =
        .error (.authenticationError .getData d um) ∧
      clientAuthenticateResult .getUser um d =
        .error (.authenticationError .getUser d um) ∧
      clientAuthenticateResult .getPassword um d =
        .error (.authenticationError .getPassword d um) ∧
      clientAuthenticateResult .error um d =
        .error (.authenticationError .error d um)) ∧
    (∀ (sent recv : List Argument) (um am : List Nat),
      clientAuthorizeResult .passAdd sent recv um am =
        .ok ⟨.success, mergeAuthorizationArguments false sent recv, um, am⟩ ∧
      clientAuthorizeResult .passReplace sent recv um am =
        .ok ⟨.success, mergeAuthorizationArguments true sent recv, um, am⟩ ∧
      clientAuthorizeResult .fail sent recv um am =
        .ok ⟨.failure, mergeAuthorizationArguments false sent recv, um, am⟩ ∧
      clientAuthorizeResult .follow sent recv um am =
        .ok ⟨.failure, mergeAuthorizationArguments false sent recv, um, am⟩ ∧
      clientAuthorizeResult .error sent recv um am =
        .error (.authorizationError .error um am)) ∧
    (∀ um am : List Nat,
      accountingMakeRequestResult .success um am = .ok ⟨um, am⟩ ∧
      accountingMakeRequestResult .error um am =
        .error (.accountingError .error um am) ∧
      accountingMakeRequestResult .follow um am =
        .error (.accountingError .follow um am)) :=
  ⟨fun _ _ => ⟨rfl, rfl, rfl, rfl, rfl, rfl, rfl, rfl⟩,
   fun _ _ _ _ => ⟨rfl, rfl, rfl, rfl, rfl⟩,
   fun _ _ => ⟨rfl, rfl, rfl⟩⟩

/-- C3 counterexample: the claim requires every authorization status other
than PassAdd, PassReplace and Fail to surface as an `AuthorizationError`
carrying that status, but `Client::authorize` maps the Follow status to a
successful result carrying `ResponseStatus::Failure` (`response.rs` sends
`authorization::Status::Follow` to `Ok(ResponseStatus::Failure)`), shown
here on empty argument lists and messages. -/
theorem c3_status_mapping_counterexample :
    clientAuthorizeResult .follow [] [] [] [] =
      .ok ⟨.failure, [], [], []⟩ := rfl

/-- C6: `Argument::new` succeeds exactly when the name is non-empty,
contains neither `=` nor `*`, and the combined encoded length fits in a
byte; on success the constructed argument carries the given fields, and
each violation is classified (in check order) as `EmptyName`,
`NameContainsDelimiter` or `TooLong`. -/
theorem c6_argument_new (name value : List Nat) (mandatory : Bool) :
    (name = [] → Argument.new name value mandatory = .error .emptyName) ∧
    (name ≠ [] → (MANDATORY_DELIMITER ∈ name ∨ OPTIONAL_DELIMITER ∈ name) →
      Argument.new name value mandatory = .error .nameContainsDelimiter) ∧
    (name ≠ [] → MANDATORY_DELIMITER ∉ name → OPTIONAL_DELIMITER ∉ name →
      255 < name.length + 1 + value.length →
      Argument.new name value mandatory = .error .tooLong) ∧
    (Argument.new name value mandatory = .ok ⟨name, value, mandatory⟩ ↔
      name ≠ [] ∧ MANDATORY_DELIMITER ∉ name ∧ OPTIONAL_DELIMITER ∉ name ∧
      name.length + 1 + value.length ≤ 255) ∧
    (∀ a, Argument.new name value mandatory = .ok a →
      a = ⟨name, value, mandatory⟩) := by
  by_cases h0 : name = [] <;>
    by_cases h1 : (61 : Nat) ∈ name <;>
      by_cases h2 : (42 : Nat) ∈ name <;>
        by_cases h3 : 255 < name.length + 1 + value.length <;>
          simp_all [Argument.new, MANDATORY_DELIMITER, OPTIONAL_DELIMITER]
  intro a ha
  rw [if_neg (by omega)] at ha
  exact (Except.ok.inj ha).symm

/-- C6 witness: the theorem applied at `name = "n"`, `value = ""`. -/
theorem c6_argument_new_witness :
    Argument.new [110] [] true = .ok ⟨[110], [], true⟩ :=
  (c6_argument_new [110] [] true).2.2.2.1.mpr (by decide)

/-- C7: single-connection bookkeeping.  `set_internal_single_connect_status`
establishes single-connection mode only on a reply with sequence number 2
carrying `SINGLE_CONNECTION` while no session has completed, and changes
nothing else; once a session has completed the flag is ignored entirely.
`post_session_cleanup` closes and drops the connection and resets both
flags whenever single-connection mode is not established or the session
ended with an error status, and otherwise marks the first session
completed. -/
theorem c7_connection_bookkeeping (st : ClientInner) (seq : Nat)
    (fl : PacketFlags) (err : Bool) :
    ((st.setInternalSingleConnectStatus seq fl).singleConnectionEstablished =
        true →
      st.singleConnectionEstablished = true ∨
      (st.firstSessionCompleted = false ∧ seq = 2 ∧
        fl.singleConnection = true)) ∧
    ((st.setInternalSingleConnectStatus seq fl).connection = st.connection ∧
      (st.setInternalSingleConnectStatus seq fl).firstSessionCompleted =
        st.firstSessionCompleted) ∧
    (st.firstSessionCompleted = true →
      st.setInternalSingleConnectStatus seq fl = st) ∧
    (st.firstSessionCompleted = false → seq = 2 →
      fl.singleConnection = true →
      (st.setInternalSingleConnectStatus seq fl).singleConnectionEstablished =
        true) ∧
    (st.connection = true →
      (st.singleConnectionEstablished = false ∨ err = true) →
      st.postSessionCleanup err = some ⟨false, false, false⟩) ∧
    (st.singleConnectionEstablished = true → err = false →
      st.postSessionCleanup err =
        some { st with firstSessionCompleted := true }) := by
  obtain ⟨c, f, s⟩ := st
  obtain ⟨u, sc⟩ := fl
  unfold ClientInner.setInternalSingleConnectStatus
    ClientInner.postSessionCleanup
  by_cases hseq : seq = 2 <;>
    cases c <;> cases f <;> cases s <;> cases sc <;> cases err <;>
      simp [hseq]

/-- C7 witness: the theorem applied at a concrete state and reply. -/
theorem c7_connection_bookkeeping_witness :
    (ClientInner.mk true false false).postSessionCleanup false =
      some ⟨false, false, false⟩ ∧
    ((ClientInner.mk true false false).setInternalSingleConnectStatus 2
        ⟨false, true⟩).singleConnectionEstablished = true :=
  ⟨(c7_connection_bookkeeping ⟨true, false, false⟩ 2 ⟨false, true⟩
      false).2.2.2.2.1 rfl (Or.inl rfl),
   (c7_connection_bookkeeping ⟨true, false, false⟩ 2 ⟨false, true⟩
      false).2.2.2.1 rfl rfl rfl⟩

/-- C8: `Packet::new` sets the header's minor version to the body's
required minor version when the body specifies one (leaving all other
header fields and the body unchanged), and leaves the header entirely
unchanged when it does not; an authentication Start body requires minor
version 0 (`Default`) for the Ascii authentication type and 1 (`V1`) for
every other type. -/
theorem c8_packet_new_minor_version :
    (∀ (β : Type) (C : PacketBodyImpl β) (h : HeaderInfo) (b : β),
      (∀ m, C.requiredMinorVersion b = some m →
        Packet.new C h b =
          ⟨{ h with version := { h.version with minor := m } }, b⟩) ∧
      (C.requiredMinorVersion b = none → Packet.new C h b = ⟨h, b⟩)) ∧
    (∀ (h : HeaderInfo) (s : Start),
      (Packet.new startPacketBody h s).header.version.minor =
        (match s.authentication.authenticationType with
          | .ascii => MinorVersion.default
          | _ => MinorVersion.v1)) := by
  constructor
  · intro β C h b
    constructor
    · intro m hm
      simp [Packet.new, hm]
    · intro hm
      simp [Packet.new, hm]
  · intro h s
    cases hty : s.authentication.authenticationType <;>
      simp [Packet.new, startPacketBody, Start.requiredMinorVersion, hty]

/-- C8 witness: the theorem applied to a PAP Start body (requires v1) on a
header carrying the default minor version. -/
theorem c8_packet_new_minor_version_witness :
    Packet.new startPacketBody ⟨⟨.rfc8907, .default⟩, 1, ⟨false, true⟩, 9⟩
        ⟨.login, ⟨0, .pap, .login⟩, ⟨[], [], []⟩, none⟩ =
      ⟨⟨⟨.rfc8907, .v1⟩, 1, ⟨false, true⟩, 9⟩,
        ⟨.login, ⟨0, .pap, .login⟩, ⟨[], [], []⟩, none⟩⟩ :=
  (c8_packet_new_minor_version.1 Start startPacketBody
    ⟨⟨.rfc8907, .default⟩, 1, ⟨false, true⟩, 9⟩
    ⟨.login, ⟨0, .pap, .login⟩, ⟨[], [], []⟩, none⟩).1 .v1 rfl

/-- C10: `HeaderInfo`'s `TryFrom<&[u8]>` reads fixed offsets 0, 2, 3 and
4..8 without a prior buffer-length check: every buffer of at least 8 bytes
parses to `Ok` or a `DeserializeError` with no out-of-bounds access, while
the empty buffer hits an out-of-bounds index (a panic, modelled `none`).
Packet-level deserialization always passes a slice of exactly 12 bytes
whose extraction is length-checked (the slice panics on a shorter buffer),
so for buffers of more than 12 bytes neither `deserialize` variant can
panic. -/
theorem c10_header_tryfrom_bounds :
    (∀ buffer : List Nat, 8 ≤ buffer.length →
      (HeaderInfo.tryFrom buffer).isSome = true) ∧
    HeaderInfo.tryFrom [] = none ∧
    (∀ buffer : List Nat, 12 ≤ buffer.length →
      (buffer.take 12).length = 12 ∧
      (HeaderInfo.tryFrom (buffer.take 12)).isSome = true) ∧
    (∀ (β : Type) (C : PacketBodyImpl β) (D : DeserializeImpl β)
        (key buffer : List Nat), 12 < buffer.length →
      (Packet.deserialize C D key buffer).isSome = true ∧
      (Packet.deserializeUnobfuscated C D buffer).isSome = true) := by
  have hlen12 : ∀ buffer : List Nat, 12 ≤ buffer.length →
      (buffer.take 12).length = 12 := by
    intro buffer h
    rw [List.length_take]
    omega
  refine ⟨?_, rfl, ?_, ?_⟩
  · intro buffer h
    obtain ⟨r, hr⟩ := headerTryFrom_exists buffer h
    simp [hr]
  · intro buffer h
    refine ⟨hlen12 buffer h, ?_⟩
    obtain ⟨r, hr⟩ := headerTryFrom_exists (buffer.take 12)
      (by rw [hlen12 buffer h]; omega)
    simp [hr]
  · intro β C D key buffer h
    obtain ⟨r, hr⟩ := headerTryFrom_exists (buffer.take 12)
      (by rw [hlen12 buffer (by omega)]; omega)
    constructor
    · unfold Packet.deserialize
      rw [if_pos (by omega : 12 ≤ buffer.length), hr]
      cases r with
      | error e => simp
      | ok header =>
        dsimp only
        by_cases hu : header.flags.unencrypted = false
        · rw [if_pos hu, if_neg (by omega : ¬buffer.length ≤ 12)]
          simp
        · rw [if_neg hu]
          simp
    · unfold Packet.deserializeUnobfuscated
      rw [if_pos (by omega : 12 ≤ buffer.length), hr]
      cases r with
      | error e => simp
      | ok header =>
        dsimp only
        by_cases hu : header.flags.unencrypted = true
        · rw [if_pos hu]
          simp
        · rw [if_neg hu]
          simp

/-- C10 witness: the theorem applied to an 8-byte buffer, and to a 13-byte
buffer at the packet level. -/
theorem c10_header_tryfrom_bounds_witness :
    (HeaderInfo.tryFrom (List.replicate 8 0)).isSome = true ∧
    (Packet.deserializeUnobfuscated accountingReplyPacketBody
      accountingReplyDeserializeImpl (List.replicate 13 0)).isSome = true :=
  ⟨c10_header_tryfrom_bounds.1 (List.replicate 8 0) (by decide),
   (c10_header_tryfrom_bounds.2.2.2 AccountingReply accountingReplyPacketBody
      accountingReplyDeserializeImpl [] (List.replicate 13 0) (by decide)).2⟩

/-! ### Authorization argument merging (C4/C9) -/

/-- Specification-side description of one merged entry: the sent argument
with its value overwritten by the first identically named received
argument, when one exists. -/
def replaceValueFrom (received : List Argument) (s : Argument) : Argument :=
  match received.find? (fun r => r.name == s.name) with
  | some r => { s with value := r.value }
  | none => s

/-- `overwriteFirstValue` returns `none` exactly when no entry has the
received argument's name. -/
lemma overwriteFirstValue_eq_none (l : List Argument) (r : Argument) :
    overwriteFirstValue l r = none ↔ ∀ a ∈ l, a.name ≠ r.name := by
  induction l with
  | nil => simp [overwriteFirstValue]
  | cons a rest ih =>
    by_cases h : a.name = r.name <;>
      simp [overwriteFirstValue, h, ih]

/-- `overwriteFirstValue` over an append: the left list is searched
first. -/
lemma overwriteFirstValue_append (l₁ l₂ : List Argument) (r : Argument) :
    overwriteFirstValue (l₁ ++ l₂) r =
      match overwriteFirstValue l₁ r with
      | some l' => some (l' ++ l₂)
      | none => (overwriteFirstValue l₂ r).map (l₁ ++ ·) := by
  induction l₁ with
  | nil => cases h : overwriteFirstValue l₂ r <;> simp [overwriteFirstValue, h]
  | cons a rest ih =>
    by_cases h : a.name = r.name
    · simp [overwriteFirstValue, h]
    · simp only [List.cons_append, overwriteFirstValue, if_neg h]
      cases h1 : overwriteFirstValue rest r with
      | some l' => simp [ih, h1]
      | none => cases h2 : overwriteFirstValue l₂ r <;> simp [ih, h1, h2]

/-- With distinct names, overwriting the first match rewrites exactly the
matching entry. -/
lemma overwriteFirstValue_nodup (l : List Argument) (r : Argument)
    (hnodup : (l.map Argument.name).Nodup) (hmem : ∃ s ∈ l, s.name = r.name) :
    overwriteFirstValue l r =
      some (l.map fun s =>
        if s.name = r.name then { s with value := r.value } else s) := by
  induction l with
  | nil => simp at hmem
  | cons a rest ih =>
    simp only [List.map_cons, List.nodup_cons] at hnodup
    by_cases h : a.name = r.name
    · have hrest : ∀ s ∈ rest, ¬s.name = r.name := by
        intro s hs hsr
        exact hnodup.1 (h ▸ hsr ▸ List.mem_map_of_mem Argument.name hs)
      have : rest.map (fun s =>
          if s.name = r.name then { s with value := r.value } else s) = rest :=
        List.map_congr_left (fun s hs => if_neg (hrest s hs)) |>.trans
          (List.map_id rest)
      simp [overwriteFirstValue, h, this]
    · obtain ⟨s, hs, hsr⟩ := hmem
      rcases List.mem_cons.mp hs with hs | hs
      · subst hs
        exact absurd hsr h
      · simp [overwriteFirstValue, h, ih hnodup.2 ⟨s, hs, hsr⟩]

/-- In a list with distinct names, `find?` by name finds a given member. -/
lemma find?_name_of_mem (l : List Argument) (r : Argument)
    (hnodup : (l.map Argument.name).Nodup) (hr : r ∈ l) :
    ∀ x, x = r.name → l.find? (fun a => a.name == x) = some r := by
  induction l with
  | nil => simp at hr
  | cons a rest ih =>
    intro x hx
    simp only [List.map_cons, List.nodup_cons] at hnodup
    rcases List.mem_cons.mp hr with hr | hr
    · subst hr
      simp [List.find?, hx]
    · have hne : ¬a.name = x := by
        intro h
        exact hnodup.1 (h.trans hx ▸ List.mem_map_of_mem Argument.name hr)
      simp only [List.find?, beq_eq_false_iff_ne.mpr hne]
      exact ih hnodup.2 hr x hx

/-- The main characterization of the replacing fold inside
`merge_authorization_arguments`; `extra` accumulates received arguments
already appended (they never collide with the remaining received names). -/
lemma merge_replacing_characterization (received : List Argument) :
    ∀ (sent extra : List Argument),
    (sent.map Argument.name).Nodup →
    (received.map Argument.name).Nodup →
    (∀ r ∈ received, ∀ e ∈ extra, r.name ≠ e.name) →
    received.foldl
      (fun acc r =>
        match overwriteFirstValue acc r with
        | some updated => updated
        | none => acc ++ [r])
      (sent ++ extra) =
    sent.map (replaceValueFrom received) ++ extra ++
      received.filter
        (fun r => !(sent.any (fun s => s.name == r.name))) := by
  induction received with
  | nil =>
    intro sent extra _ _ _
    have hmap : sent.map (replaceValueFrom []) = sent :=
      (List.map_congr_left fun s _ => rfl).trans (List.map_id sent)
    simp [hmap]
  | cons r rest ih =>
    intro sent extra hsent hrecv hextra
    simp only [List.map_cons, List.nodup_cons] at hrecv
    have hrestnames : ∀ r' ∈ rest, r'.name ≠ r.name := by
      intro r' hr' h
      exact hrecv.1 (h ▸ List.mem_map_of_mem Argument.name hr')
    have hany_congr : ∀ (l : List Argument) (p q : Argument → Bool),
        (∀ x ∈ l, p x = q x) → l.any p = l.any q := by
      intro l p q h
      induction l with
      | nil => rfl
      | cons a t iht =>
        simp only [List.any_cons, h a (List.mem_cons_self a t)]
        rw [iht fun x hx => h x (List.mem_cons_of_mem a hx)]
    by_cases hmatch : ∃ s ∈ sent, s.name = r.name
    · -- the received argument overwrites a sent entry
      have hover := overwriteFirstValue_nodup sent r hsent hmatch
      have hstep : overwriteFirstValue (sent ++ extra) r =
          some ((sent.map fun s =>
            if s.name = r.name then { s with value := r.value } else s) ++
            extra) := by
        rw [overwriteFirstValue_append, hover]
      set sent' := sent.map fun s =>
        if s.name = r.name then { s with value := r.value } else s with hsent'
      have hnames' : sent'.map Argument.name = sent.map Argument.name := by
        rw [hsent', List.map_map]
        exact List.map_congr_left fun s _ => by
          by_cases h : s.name = r.name <;> simp [h]
      have hres := ih sent' extra (hnames' ▸ hsent) hrecv.2
        (fun r' hr' => hextra r' (List.mem_cons_of_mem r hr'))
      simp only [List.foldl_cons, hstep]
      rw [hres]
      congr 1
      · congr 1
        rw [hsent', List.map_map]
        refine List.map_congr_left fun s hs => ?_
        by_cases h : s.name = r.name
        · have hrnone : rest.find? (fun a => a.name == r.name) = none := by
            rw [List.find?_eq_none]
            intro r' hr'
            simp only [beq_iff_eq]
            exact hrestnames r' hr'
          simp [replaceValueFrom, Function.comp, h, hrnone, List.find?]
        · have hne : (r.name == s.name) = false :=
            beq_eq_false_iff_ne.mpr fun hc => h hc.symm
          simp [replaceValueFrom, Function.comp, if_neg h, List.find?, hne]
      · have hfalse :
            (sent.any fun s => s.name == r.name) = true := by
          obtain ⟨s, hs, hsr⟩ := hmatch
          exact List.any_eq_true.mpr ⟨s, hs, beq_iff_eq.mpr hsr⟩
        have hany : ∀ r' : Argument,
            (sent'.any fun s => s.name == r'.name) =
            (sent.any fun s => s.name == r'.name) := by
          intro r'
          rw [hsent', List.any_map]
          exact hany_congr sent _ _ fun s _ => by
            by_cases h : s.name = r.name <;> simp [Function.comp, h]
        rw [List.filter_cons, hfalse, if_neg (by decide)]
        exact List.filter_congr fun r' _ => by rw [hany r']
    · -- no sent entry matches: the received argument is appended
      push_neg at hmatch
      have hnone : overwriteFirstValue (sent ++ extra) r = none := by
        rw [overwriteFirstValue_eq_none]
        intro a ha
        rcases List.mem_append.mp ha with ha | ha
        · exact hmatch a ha
        · exact fun h => hextra r (List.mem_cons_self r rest) a ha h.symm
      have hres := ih sent (extra ++ [r]) hsent hrecv.2 ?_
      · simp only [List.foldl_cons, hnone, List.append_assoc] at hres ⊢
        rw [hres]
        have hmap : ∀ s ∈ sent,
            replaceValueFrom rest s = replaceValueFrom (r :: rest) s := by
          intro s hs
          simp only [replaceValueFrom, List.find?]
          rw [beq_eq_false_iff_ne.mpr (fun hc => hmatch s hs hc.symm)]
        have htrue : (sent.any fun s => s.name == r.name) = false := by
          rw [List.any_eq_false]
          intro s hs
          simp only [beq_iff_eq]
          exact hmatch s hs
        rw [List.filter_cons, htrue, if_pos (by decide)]
        rw [List.map_congr_left hmap]
        simp
      · intro r' hr' e he
        rcases List.mem_append.mp he with he | he
        · exact hextra r' (List.mem_cons_of_mem r hr') e he
        · rw [List.mem_singleton.mp he]
          exact hrestnames r' hr'

/-- C4: in `Client::authorize`, for duplicate-free sent and received
argument lists, a PassAdd reply returns the sent arguments followed by the
received arguments in order, and a PassReplace reply returns each sent
entry with its value overwritten by the identically named received value
when one exists, followed by the received arguments matching no sent
name. -/
theorem c4_authorize_argument_merge (sent recv : List Argument)
    (um am : List Nat)
    (hsent : (sent.map Argument.name).Nodup)
    (hrecv : (recv.map Argument.name).Nodup) :
    clientAuthorizeResult .passAdd sent recv um am =
      .ok ⟨.success, sent ++ recv, um, am⟩ ∧
    clientAuthorizeResult .passReplace sent recv um am =
      .ok ⟨.success,
        sent.map (replaceValueFrom recv) ++
          recv.filter (fun r => !(sent.any fun s => s.name == r.name)),
        um, am⟩ := by
  constructor
  · rfl
  · have h := merge_replacing_characterization recv sent [] hsent hrecv
      (by simp)
    simp only [List.append_nil] at h
    simp [clientAuthorizeResult, ResponseStatus.tryFromAuthorization,
      mergeAuthorizationArguments, h]

/-- C4 witness: the theorem applied to one sent argument `a=b` and one
received argument `a*c` (PassReplace overwrites only the value). -/
theorem c4_authorize_argument_merge_witness :
    clientAuthorizeResult .passAdd [⟨[97], [98], true⟩] [⟨[97], [99], false⟩]
        [] [] =
      .ok ⟨.success, [⟨[97], [98], true⟩] ++ [⟨[97], [99], false⟩], [], []⟩ ∧
    clientAuthorizeResult .passReplace [⟨[97], [98], true⟩]
        [⟨[97], [99], false⟩] [] [] =
      .ok ⟨.success,
        [Argument.mk [97] [98] true].map
            (replaceValueFrom [⟨[97], [99], false⟩]) ++
          [Argument.mk [97] [99] false].filter
            (fun r =>
              !([Argument.mk [97] [98] true].any
                fun s => s.name == r.name)),
        [], []⟩ :=
  c4_authorize_argument_merge [⟨[97], [98], true⟩] [⟨[97], [99], false⟩]
    [] [] (by decide) (by decide)

/-- C9: in the PassReplace merge (duplicate-free names), each sent
argument's slot keeps its name and mandatory flag; a sent argument whose
name matches no received argument is returned completely unchanged in its
original position, and a matching received argument overwrites only its
value (even when the received mandatory flag differs, which the merged
entry ignores). -/
theorem c9_replace_only_value (sent recv : List Argument)
    (hsent : (sent.map Argument.name).Nodup)
    (hrecv : (recv.map Argument.name).Nodup) :
    ∀ i (hi : i < sent.length), ∃ a,
      (mergeAuthorizationArguments true sent recv).get? i = some a ∧
      a.name = (sent.get ⟨i, hi⟩).name ∧
      a.mandatory = (sent.get ⟨i, hi⟩).mandatory ∧
      ((∀ r ∈ recv, r.name ≠ (sent.get ⟨i, hi⟩).name) →
        a = sent.get ⟨i, hi⟩) ∧
      (∀ r ∈ recv, r.name = (sent.get ⟨i, hi⟩).name →
        a = { sent.get ⟨i, hi⟩ with value := r.value }) := by
  intro i hi
  have h := merge_replacing_characterization recv sent [] hsent hrecv
    (by simp)
  simp only [List.append_nil] at h
  have hmerge : mergeAuthorizationArguments true sent recv =
      sent.map (replaceValueFrom recv) ++
        recv.filter (fun r => !(sent.any fun s => s.name == r.name)) := by
    simpa [mergeAuthorizationArguments] using h
  refine ⟨replaceValueFrom recv (sent.get ⟨i, hi⟩), ?_, ?_, ?_, ?_, ?_⟩
  · rw [hmerge, List.get?_append (by simpa using hi), List.get?_map,
      List.get?_eq_get hi]
    rfl
  · unfold replaceValueFrom
    cases recv.find? (fun r => r.name == (sent.get ⟨i, hi⟩).name) <;> rfl
  · unfold replaceValueFrom
    cases recv.find? (fun r => r.name == (sent.get ⟨i, hi⟩).name) <;> rfl
  · intro hno
    unfold replaceValueFrom
    rw [List.find?_eq_none.mpr]
    intro r hr
    simp only [beq_iff_eq]
    exact hno r hr
  · intro r hr hname
    have hfind := find?_name_of_mem recv r hrecv hr
      (sent.get ⟨i, hi⟩).name hname.symm
    unfold replaceValueFrom
    rw [hfind]

/-- C9 witness: the theorem applied at index 0 of a one-element sent list
whose match has a differing mandatory flag. -/
theorem c9_replace_only_value_witness :
    ∃ a, (mergeAuthorizationArguments true [⟨[97], [98], true⟩]
        [⟨[97], [99], false⟩]).get? 0 = some a ∧
      a.name = (([Argument.mk [97] [98] true]).get ⟨0, by decide⟩).name ∧
      a.mandatory =
        (([Argument.mk [97] [98] true]).get ⟨0, by decide⟩).mandatory ∧
      ((∀ r ∈ [Argument.mk [97] [99] false],
          r.name ≠ (([Argument.mk [97] [98] true]).get ⟨0, by decide⟩).name) →
        a = ([Argument.mk [97] [98] true]).get ⟨0, by decide⟩) ∧
      (∀ r ∈ [Argument.mk [97] [99] false],
        r.name = (([Argument.mk [97] [98] true]).get ⟨0, by decide⟩).name →
        a = { ([Argument.mk [97] [98] true]).get ⟨0, by decide⟩ with
          value := r.value }) :=
  c9_replace_only_value [⟨[97], [98], true⟩] [⟨[97], [99], false⟩]
    (by decide) (by decide) 0 (by decide)

/-! ### Pseudo-pad structure lemmas (towards C1/C2) -/

/-- An MD5 digest always has 16 bytes. -/
lemma md5_length (msg : List Nat) : (md5 msg).length = 16 := by
  simp [md5, le32]

/-- The concatenation of the first `n` pseudo-pad chunks. -/
def padConcat (pfx : List Nat) : Nat → List Nat → List Nat
  | 0, _ => []
  | n + 1, pad => pad ++ padConcat pfx n (md5 (pfx ++ pad))

/-- Length of `n` concatenated pad chunks. -/
lemma padConcat_length (pfx : List Nat) :
    ∀ (n : Nat) (pad : List Nat), pad.length = 16 →
    (padConcat pfx n pad).length = 16 * n := by
  intro n
  induction n with
  | zero => intro pad _; rfl
  | succ n ih =>
    intro pad hpad
    simp only [padConcat, List.length_append, hpad, ih _ (md5_length _)]
    ring

/-- `zipWith` ignores any extension of its second list beyond the first's
length. -/
lemma zipWith_right_ext (f : Nat → Nat → Nat) :
    ∀ (l p q : List Nat), l.length ≤ p.length →
    List.zipWith f l (p ++ q) = List.zipWith f l p := by
  intro l
  induction l with
  | nil => intro p q _; simp
  | cons a l ih =>
    intro p q hp
    cases p with
    | nil => simp at hp
    | cons b p =>
      simp only [List.cons_append, List.zipWith_cons_cons]
      rw [ih p q (by simpa using hp)]

/-- The chunked XOR loop equals a plain byte-wise XOR with the
concatenated pad chunks (for any sufficient fuel and chunk count). -/
lemma xorPadChunks_eq_zipWith (pfx : List Nat) :
    ∀ (n fuel : Nat) (pad body : List Nat), pad.length = 16 →
    body.length ≤ fuel → body.length ≤ 16 * n →
    xorPadChunks pfx fuel pad body =
      List.zipWith (· ^^^ ·) body (padConcat pfx n pad) := by
  intro n
  induction n with
  | zero =>
    intro fuel pad body _ _ hbody
    have : body = [] := List.length_eq_zero.mp (by omega)
    subst this
    cases fuel <;> simp [xorPadChunks, padConcat]
  | succ n ih =>
    intro fuel pad body hpad hfuel hbody
    cases body with
    | nil => cases fuel <;> simp [xorPadChunks]
    | cons b bs =>
      cases fuel with
      | zero => simp at hfuel
      | succ f =>
        have hlc : (b :: bs).length = bs.length + 1 := by simp
        rw [hlc] at hfuel hbody
        simp only [xorPadChunks, xorSlices, padConcat]
        rw [ih f (md5 (pfx ++ pad)) ((b :: bs).drop 16) (md5_length _)
          (by rw [List.length_drop, hlc]; omega)
          (by rw [List.length_drop, hlc]; omega)]
        by_cases hlen : (b :: bs).length ≤ 16
        · have hdrop : (b :: bs).drop 16 = [] := by
            rw [List.drop_eq_nil_iff]
            omega
          have htake : (b :: bs).take 16 = b :: bs :=
            List.take_of_length_le hlen
          rw [hdrop, htake]
          simp only [List.zipWith_nil_left, List.append_nil]
          rw [zipWith_right_ext _ (b :: bs) pad (padConcat pfx n _)
            (by omega)]
        · conv_rhs => rw [← List.take_append_drop 16 (b :: bs)]
          rw [List.zipWith_append _ _ _ _ _
            (by rw [List.length_take, hpad]; omega)]

/-- The pseudo-pad XOR preserves the body length. -/
lemma xorBodyWithPad_length (h : HeaderInfo) (key body : List Nat) :
    (xorBodyWithPad h key body).length = body.length := by
  unfold xorBodyWithPad
  rw [xorPadChunks_eq_zipWith _ body.length body.length _ body
    (md5_length _) le_rfl (by omega)]
  rw [List.length_zipWith, padConcat_length _ _ _ (md5_length _)]
  omega

/-- XOR of byte lists cancels itself position-wise. -/
lemma zipWith_xor_cancel :
    ∀ (l s : List Nat), l.length ≤ s.length →
    List.zipWith (· ^^^ ·) (List.zipWith (· ^^^ ·) l s) s = l := by
  intro l
  induction l with
  | nil => intro s _; simp
  | cons a l ih =>
    intro s hs
    cases s with
    | nil => simp at hs
    | cons b s =>
      simp only [List.zipWith_cons_cons]
      rw [ih s (by simpa using hs), Nat.xor_assoc, Nat.xor_self,
        Nat.xor_zero]

/-- The pseudo-pad XOR is its own inverse (RFC 8907 §4.5). -/
lemma xorBodyWithPad_involution (h : HeaderInfo) (key body : List Nat) :
    xorBodyWithPad h key (xorBodyWithPad h key body) = body := by
  unfold xorBodyWithPad
  have hS : (padConcat (padPrefixBytes h key) body.length
      (md5 (padPrefixBytes h key))).length = 16 * body.length :=
    padConcat_length _ _ _ (md5_length _)
  rw [xorPadChunks_eq_zipWith _ body.length body.length _ body
    (md5_length _) le_rfl (by omega)]
  rw [xorPadChunks_eq_zipWith _ body.length _ _ _
    (md5_length _) le_rfl (by rw [List.length_zipWith]; omega)]
  exact zipWith_xor_cancel body _ (by omega)

/-- XORing an extended body and truncating to the original length yields
the XOR of the original body: deobfuscation of `buffer[12..]` followed by
slicing to the header's body length recovers the body bytes. -/
lemma xorBodyWithPad_take (h : HeaderInfo) (key body tail : List Nat) :
    (xorBodyWithPad h key (body ++ tail)).take body.length =
      xorBodyWithPad h key body := by
  unfold xorBodyWithPad
  have hn : (body ++ tail).length ≤ 16 * (body ++ tail).length := by omega
  have hS : (padConcat (padPrefixBytes h key) (body ++ tail).length
      (md5 (padPrefixBytes h key))).length = 16 * (body ++ tail).length :=
    padConcat_length _ _ _ (md5_length _)
  rw [xorPadChunks_eq_zipWith _ (body ++ tail).length (body ++ tail).length
    _ (body ++ tail) (md5_length _) le_rfl hn]
  rw [xorPadChunks_eq_zipWith _ (body ++ tail).length body.length
    _ body (md5_length _) le_rfl
    (by rw [List.length_append]; omega)]
  set S := padConcat (padPrefixBytes h key) (body ++ tail).length
    (md5 (padPrefixBytes h key)) with hSdef
  have hbS : body.length ≤ S.length := by
    rw [hS, List.length_append]
    omega
  conv_lhs =>
    rw [(List.take_append_drop body.length S).symm]
  rw [List.zipWith_append _ _ _ _ _
    (by rw [List.length_take]; omega)]
  rw [List.take_left'
    (by rw [List.length_zipWith, List.length_take]; omega)]
  conv_rhs => rw [(List.take_append_drop body.length S).symm]
  rw [zipWith_right_ext _ body (S.take body.length) (S.drop body.length)
    (by rw [List.length_take]; omega)]

/-! ### Header serialization round trip -/

/-- A serialized header always occupies 12 bytes. -/
lemma headerSerialize_length (h : HeaderInfo) (t : PacketType) (n : Nat) :
    (h.serialize t n).length = 12 := by
  simp [HeaderInfo.serialize, be32]

/-- The version byte parses back to the version it encodes. -/
lemma version_roundtrip (v : Version) : Version.tryFrom v.toByte = .ok v := by
  obtain ⟨ma, mi⟩ := v
  cases ma
  cases mi <;> rfl

/-- The flag byte parses back to the flags it encodes. -/
lemma flags_roundtrip (f : PacketFlags) :
    PacketFlags.fromBits f.bits = some f := by
  obtain ⟨u, s⟩ := f
  cases u <;> cases s <;> decide

/-- Bit 0 of the flag byte with `UNENCRYPTED` cleared. -/
lemma bits_and_one_false (s : Bool) :
    PacketFlags.bits ⟨false, s⟩ &&& 1 = 0 := by
  cases s <;> decide

/-- Bit 0 of the flag byte with `UNENCRYPTED` set. -/
lemma bits_and_one_true (s : Bool) :
    PacketFlags.bits ⟨true, s⟩ &&& 1 = 1 := by
  cases s <;> decide

/-- The packet type byte parses back to the type it encodes. -/
lemma packetType_roundtrip (t : PacketType) :
    PacketType.tryFrom t.toByte = .ok t := by
  cases t <;> rfl

/-- Big-endian 32-bit write/read round trip. -/
lemma be32_roundtrip (n : Nat) (h : n < U32) : be32read (be32 n) = n := by
  simp only [U32] at h
  simp [be32, be32read]
  omega

/-- A serialized header parses back to the header it encodes (the packet
type and body length bytes are ignored by `HeaderInfo`'s parser). -/
lemma headerInfo_roundtrip (h : HeaderInfo) (t : PacketType) (n : Nat)
    (hsid : h.sessionId < U32) :
    HeaderInfo.tryFrom (h.serialize t n) = some (.ok h) := by
  obtain ⟨v, seq, fl, sid⟩ := h
  simp only [U32] at hsid
  simp [HeaderInfo.tryFrom, HeaderInfo.serialize, be32,
    version_roundtrip, flags_roundtrip, List.get, be32read]
  omega

/-- `Packet::deserialize_body` never reports `IncorrectUnencryptedFlag`
when the body deserializer does not. -/
lemma deserializeBody_ne_incorrectFlag (C : PacketBodyImpl β)
    (D : DeserializeImpl β) (buffer : List Nat)
    (hD : ∀ bs, D.deserializeFromBuffer bs ≠
      .error .incorrectUnencryptedFlag) :
    Packet.deserializeBody C D buffer ≠
      .error .incorrectUnencryptedFlag := by
  unfold Packet.deserializeBody
  by_cases h : 12 < buffer.length
  · rw [dif_pos h]
    cases h' : PacketType.tryFrom (buffer.get ⟨1, by omega⟩) with
    | error e =>
      have he : e = .invalidPacketType (buffer.get ⟨1, by omega⟩) := by
        unfold PacketType.tryFrom at h'
        split at h' <;> simp_all
      dsimp only
      rw [he]
      simp
    | ok actual =>
      dsimp only
      by_cases ht : actual = C.TYPE
      · rw [if_pos ht]
        by_cases hb : be32read ((buffer.drop 8).take 4) ≤
            (buffer.drop 12).length
        · rw [if_pos hb]
          exact hD _
        · rw [if_neg hb]
          simp
      · rw [if_neg ht]
        simp
  · rw [dif_neg h]
    simp

/-- C2: `Packet::serialize` with a secret emits header bytes with the
`UNENCRYPTED` bit (bit 0 of byte 3) cleared, `serialize_unobfuscated`
emits it set; conversely, once the received header parses,
`Packet::deserialize` fails with `IncorrectUnencryptedFlag` exactly when
the header's `UNENCRYPTED` flag is set, and
`deserialize_unobfuscated` fails with that error exactly when the flag is
clear (the body deserializers never produce that error themselves). -/
theorem c2_unencrypted_flag_policy :
    (∀ (β : Type) (C : PacketBodyImpl β) (S : SerializeImpl β)
        (key : List Nat) (p : Packet β) (buffer out : List Nat) (n : Nat),
      Packet.serialize C S key p buffer = some (.ok (out, n)) →
      ∃ b, out.get? 3 = some b ∧ b &&& 1 = 0) ∧
    (∀ (β : Type) (C : PacketBodyImpl β) (S : SerializeImpl β)
        (p : Packet β) (buffer out : List Nat) (n : Nat),
      Packet.serializeUnobfuscated C S p buffer = .ok (out, n) →
      ∃ b, out.get? 3 = some b ∧ b &&& 1 = 1) ∧
    (∀ (β : Type) (C : PacketBodyImpl β) (D : DeserializeImpl β)
        (key buffer : List Nat) (header : HeaderInfo),
      12 ≤ buffer.length →
      HeaderInfo.tryFrom (buffer.take 12) = some (.ok header) →
      (∀ bs, D.deserializeFromBuffer bs ≠
        .error .incorrectUnencryptedFlag) →
      (Packet.deserialize C D key buffer =
          some (.error .incorrectUnencryptedFlag) ↔
        header.flags.unencrypted = true) ∧
      (Packet.deserializeUnobfuscated C D buffer =
          some (.error .incorrectUnencryptedFlag) ↔
        header.flags.unencrypted = false)) := by
  have hserPacket : ∀ (β : Type) (C : PacketBodyImpl β)
      (S : SerializeImpl β) (p : Packet β) (buffer buf : List Nat) (n : Nat),
      Packet.serializePacket C S p buffer = .ok (buf, n) →
      ∃ b, buf.get? 3 = some b ∧ b = p.header.flags.bits := by
    intro β C S p buffer buf n hok
    unfold Packet.serializePacket at hok
    by_cases hws : Packet.wireSizeOf S p ≤ buffer.length
    · rw [if_pos hws] at hok
      cases hser : S.serializeIntoBuffer p.body with
      | error e => rw [hser] at hok; exact absurd hok (by simp)
      | ok bodyBytes =>
        rw [hser] at hok
        dsimp only at hok
        by_cases h32 : bodyBytes.length < U32
        · rw [if_pos h32] at hok
          simp only [Except.ok.injEq, Prod.mk.injEq] at hok
          refine ⟨p.header.flags.bits, ?_, rfl⟩
          rw [← hok.1]
          simp [HeaderInfo.serialize]
        · rw [if_neg h32] at hok
          exact absurd hok (by simp)
    · rw [if_neg hws] at hok
      exact absurd hok (by simp)
  refine ⟨?_, ?_, ?_⟩
  · intro β C S key p buffer out n hser
    unfold Packet.serialize at hser
    cases hres : Packet.serializePacket C S
        ⟨{ p.header with flags := { p.header.flags with
          unencrypted := false } }, p.body⟩ buffer with
    | error e => rw [hres] at hser; simp at hser
    | ok pair =>
      obtain ⟨buf, len⟩ := pair
      rw [hres] at hser
      dsimp only at hser
      by_cases hempty : ((buf.drop 12).take (len - 12)).length = 0
      · rw [if_pos hempty] at hser
        simp at hser
      · rw [if_neg hempty] at hser
        simp only [Option.some.injEq, Except.ok.injEq,
          Prod.mk.injEq] at hser
        obtain ⟨b, hb, hbits⟩ := hserPacket β C S _ buffer buf len hres
        refine ⟨b, ?_, ?_⟩
        · rw [← hser.1]
          obtain ⟨hlt, -⟩ := List.get?_eq_some.mp hb
          have h3 : (3 : Nat) < (buf.take 12).length := by
            rw [List.length_take]
            omega
          rw [List.append_assoc, List.get?_append (by simpa using h3)]
          rw [List.get?_take (by omega)]
          exact hb
        · rw [hbits]
          dsimp only
          exact bits_and_one_false _
  · intro β C S p buffer out n hser
    unfold Packet.serializeUnobfuscated at hser
    obtain ⟨b, hb, hbits⟩ := hserPacket β C S _ buffer out n hser
    refine ⟨b, hb, ?_⟩
    rw [hbits]
    dsimp only
    exact bits_and_one_true _
  · intro β C D key buffer header h12 hhdr hD
    constructor
    · unfold Packet.deserialize
      rw [if_pos h12, hhdr]
      dsimp only
      by_cases hu : header.flags.unencrypted = false
      · rw [if_pos hu, hu]
        simp only [Bool.false_eq_true, iff_false]
        by_cases hl : buffer.length ≤ 12
        · rw [if_pos hl]
          simp
        · rw [if_neg hl]
          intro hc
          simp only [Option.some.injEq] at hc
          cases hbody : Packet.deserializeBody C D (buffer.take 12 ++
              xorBodyWithPad header key (buffer.drop 12)) with
          | error e =>
            rw [hbody] at hc
            simp only [Except.map, Except.error.injEq] at hc
            exact deserializeBody_ne_incorrectFlag C D _ hD
              (hbody.trans (by rw [hc]))
          | ok b =>
            rw [hbody] at hc
            simp [Except.map] at hc
      · rw [if_neg hu]
        simp only [Bool.not_eq_false] at hu
        simp [hu]
    · unfold Packet.deserializeUnobfuscated
      rw [if_pos h12, hhdr]
      dsimp only
      by_cases hu : header.flags.unencrypted = true
      · rw [if_pos hu, hu]
        simp only [Bool.true_eq_false, iff_false]
        intro hc
        simp only [Option.some.injEq] at hc
        cases hbody : Packet.deserializeBody C D buffer with
        | error e =>
          rw [hbody] at hc
          simp only [Except.map, Except.error.injEq] at hc
          exact deserializeBody_ne_incorrectFlag C D _ hD
            (hbody.trans (by rw [hc]))
        | ok b =>
          rw [hbody] at hc
          simp [Except.map] at hc
      · rw [if_neg hu]
        simp only [Bool.not_eq_true] at hu
        simp [hu]

/-- The accounting reply deserializer reports size, status or text errors,
never `IncorrectUnencryptedFlag`. -/
lemma accountingReply_no_incorrectFlag (bs : List Nat) :
    AccountingReply.deserializeFromBuffer bs ≠
      .error .incorrectUnencryptedFlag := by
  unfold AccountingReply.deserializeFromBuffer
  by_cases h5 : 5 ≤ bs.length
  · rw [if_pos h5]
    by_cases ht : 5 + be16read (bs.take 2) + be16read ((bs.drop 2).take 2) =
        bs.length
    · rw [if_pos ht]
      cases h : AccountingStatus.tryFrom (bs.getD 4 0) with
      | error e =>
        have he : e = .invalidStatus (bs.getD 4 0) := by
          unfold AccountingStatus.tryFrom at h
          split at h <;> simp_all
        dsimp only
        rw [he]
        simp
      | ok st =>
        dsimp only
        by_cases hsm : fieldTextValid ((bs.drop 5).take (be16read
            (bs.take 2))) = true
        · rw [if_pos hsm]
          by_cases hd : fieldTextValid ((bs.drop (5 + be16read
              (bs.take 2))).take (be16read ((bs.drop 2).take 2))) = true
          · rw [if_pos hd]
            simp
          · rw [if_neg hd]
            simp
        · rw [if_neg hsm]
          simp
    · rw [if_neg ht]
      simp
  · rw [if_neg h5]
    simp

set_option maxRecDepth 10000 in
/-- C2 witness: the theorem applied to concrete packets — a cleartext
serialization (flag byte bit 0 set), and a 12-byte obfuscated-direction
buffer whose header has `UNENCRYPTED` set (rejected). -/
theorem c2_unencrypted_flag_policy_witness :
    (∃ b, ([192, 3, 1, 0, 0, 0, 0, 0, 0, 0, 0, 1, 145] : List Nat).get? 3 =
      some b ∧ b &&& 1 = 0) ∧
    (∃ b, ([192, 3, 1, 1, 0, 0, 0, 0, 0, 0, 0, 1, 0] : List Nat).get? 3 =
      some b ∧ b &&& 1 = 1) ∧
    Packet.deserialize accountingReplyPacketBody
        accountingReplyDeserializeImpl []
        [192, 3, 2, 1, 0, 0, 0, 0, 0, 0, 0, 0] =
      some (.error .incorrectUnencryptedFlag) :=
  ⟨c2_unencrypted_flag_policy.1 (List Nat) ⟨.accounting, fun _ => none⟩
      ⟨List.length, fun b => .ok b⟩ [1]
      ⟨⟨⟨.rfc8907, .default⟩, 1, ⟨false, false⟩, 0⟩, [0]⟩
      (List.replicate 13 0) [192, 3, 1, 0, 0, 0, 0, 0, 0, 0, 0, 1, 145] 13
      (by decide),
   c2_unencrypted_flag_policy.2.1 (List Nat) ⟨.accounting, fun _ => none⟩
      ⟨List.length, fun b => .ok b⟩
      ⟨⟨⟨.rfc8907, .default⟩, 1, ⟨false, false⟩, 0⟩, [0]⟩
      (List.replicate 13 0) [192, 3, 1, 1, 0, 0, 0, 0, 0, 0, 0, 1, 0] 13
      (by decide),
   (c2_unencrypted_flag_policy.2.2 AccountingReply accountingReplyPacketBody
      accountingReplyDeserializeImpl []
      [192, 3, 2, 1, 0, 0, 0, 0, 0, 0, 0, 0]
      ⟨⟨.rfc8907, .default⟩, 2, ⟨true, false⟩, 0⟩ (by decide) (by decide)
      accountingReply_no_incorrectFlag).1.mpr rfl⟩

/-! ### Packet round trip (serialize then deserialize) -/

/-- Overwriting a header's `UNENCRYPTED` flag with its current value leaves
the header unchanged. -/
lemma headerFlags_eta (h : HeaderInfo) (b : Bool)
    (hf : h.flags.unencrypted = b) :
    ({ h with flags := { h.flags with unencrypted := b } } : HeaderInfo)
      = h := by
  obtain ⟨v, s, ⟨u, sc⟩, sid⟩ := h
  subst hf
  rfl

/-- `Packet::serialize_packet` on a sufficient buffer and a successful body
serializer: 12 header bytes, then the body bytes, then the remainder of the
buffer, with the total written length reported. -/
lemma serializePacket_ok (C : PacketBodyImpl β) (S : SerializeImpl β)
    (p : Packet β) (buffer bodyBytes : List Nat)
    (hsize : Packet.wireSizeOf S p ≤ buffer.length)
    (hser : S.serializeIntoBuffer p.body = .ok bodyBytes)
    (hlt : bodyBytes.length < U32) :
    Packet.serializePacket C S p buffer =
      .ok (p.header.serialize C.TYPE bodyBytes.length ++ bodyBytes ++
        buffer.drop (12 + bodyBytes.length), 12 + bodyBytes.length) := by
  unfold Packet.serializePacket
  rw [if_pos hsize, hser]
  dsimp only
  rw [if_pos hlt]

/-- `Packet::deserialize_body` on a wire image consisting of a serialized
header followed by the body bytes the header's length field counts: the
type byte matches, the length field reads back, and the body deserializer
receives exactly the body bytes. -/
lemma deserializeBody_of_wire (C : PacketBodyImpl β) (D : DeserializeImpl β)
    (h : HeaderInfo) (bodyBytes : List Nat) (b : β)
    (hne : bodyBytes ≠ [])
    (hlt : bodyBytes.length < U32)
    (hparse : D.deserializeFromBuffer bodyBytes = .ok b) :
    Packet.deserializeBody C D
      (h.serialize C.TYPE bodyBytes.length ++ bodyBytes) = .ok b := by
  have hbl : 0 < bodyBytes.length := List.length_pos.mpr hne
  obtain ⟨s0, s1, s2, s3, hsid⟩ : ∃ s0 s1 s2 s3,
      be32 h.sessionId = [s0, s1, s2, s3] := ⟨_, _, _, _, rfl⟩
  have hn4 : (be32 bodyBytes.length).length = 4 := by simp [be32]
  have hbuf : h.serialize C.TYPE bodyBytes.length ++ bodyBytes =
      h.version.toByte :: C.TYPE.toByte :: h.sequenceNumber ::
        h.flags.bits :: s0 :: s1 :: s2 :: s3 ::
        (be32 bodyBytes.length ++ bodyBytes) := by
    simp [HeaderInfo.serialize, hsid]
  rw [hbuf]
  unfold Packet.deserializeBody
  have hlen : (h.version.toByte :: C.TYPE.toByte :: h.sequenceNumber ::
      h.flags.bits :: s0 :: s1 :: s2 :: s3 ::
      (be32 bodyBytes.length ++ bodyBytes)).length =
      12 + bodyBytes.length := by
    simp [be32]
    omega
  rw [dif_pos (by rw [hlen]; omega)]
  simp only [List.get, packetType_roundtrip]
  rw [if_pos trivial]
  have hdrop8 : (h.version.toByte :: C.TYPE.toByte :: h.sequenceNumber ::
      h.flags.bits :: s0 :: s1 :: s2 :: s3 ::
      (be32 bodyBytes.length ++ bodyBytes)).drop 8 =
      be32 bodyBytes.length ++ bodyBytes := by
    simp
  have hdrop12 : (h.version.toByte :: C.TYPE.toByte :: h.sequenceNumber ::
      h.flags.bits :: s0 :: s1 :: s2 :: s3 ::
      (be32 bodyBytes.length ++ bodyBytes)).drop 12 = bodyBytes := by
    have h4 : (h.version.toByte :: C.TYPE.toByte :: h.sequenceNumber ::
        h.flags.bits :: s0 :: s1 :: s2 :: s3 ::
        (be32 bodyBytes.length ++ bodyBytes)).drop 12 =
        (be32 bodyBytes.length ++ bodyBytes).drop 4 := by
      simp
    rw [h4, List.drop_left' hn4]
  rw [hdrop8, hdrop12, List.take_left' hn4, be32_roundtrip _ hlt]
  rw [if_pos le_rfl, List.take_length]
  exact hparse

set_option maxRecDepth 2000 in
/-- C1: round trip for every legal packet whose header flags already match
the secret convention — any body codec whose deserializer inverts its
serializer, a packet built by `Packet::new` (so the header's minor version
agrees with the body's requirement), a session id fitting `u32`, a
non-empty body below the `u32` length limit, and any buffer of at least the
packet's wire size.  In the obfuscated direction `Packet::serialize` with a
secret followed by `Packet::deserialize` with the same secret on the bytes
written returns the original packet, and in the cleartext direction
`serialize_unobfuscated` followed by `deserialize_unobfuscated` does too:
header fields and body contents (hence argument order) are preserved
exactly. -/
theorem c1_packet_roundtrip (β : Type) (C : PacketBodyImpl β)
    (S : SerializeImpl β) (D : DeserializeImpl β) (key : List Nat)
    (p : Packet β) (buffer bodyBytes : List Nat)
    (hser : S.serializeIntoBuffer p.body = .ok bodyBytes)
    (hparse : D.deserializeFromBuffer bodyBytes = .ok p.body)
    (hne : bodyBytes ≠ [])
    (hlt : bodyBytes.length < U32)
    (hsid : p.header.sessionId < U32)
    (hnew : Packet.new C p.header p.body = p)
    (hsize : Packet.wireSizeOf S p ≤ buffer.length) :
    (p.header.flags.unencrypted = false →
      ∃ out, Packet.serialize C S key p buffer =
          some (.ok (out, 12 + bodyBytes.length)) ∧
        Packet.deserialize C D key (out.take (12 + bodyBytes.length)) =
          some (.ok p)) ∧
    (p.header.flags.unencrypted = true →
      ∃ out, Packet.serializeUnobfuscated C S p buffer =
          .ok (out, 12 + bodyBytes.length) ∧
        Packet.deserializeUnobfuscated C D
          (out.take (12 + bodyBytes.length)) = some (.ok p)) := by
  have hbl : 0 < bodyBytes.length := List.length_pos.mpr hne
  have hhl : (p.header.serialize C.TYPE bodyBytes.length).length = 12 :=
    headerSerialize_length _ _ _
  have hdroplen : (p.header.serialize C.TYPE bodyBytes.length ++ bodyBytes ++
      buffer.drop (12 + bodyBytes.length)).drop (12 + bodyBytes.length) =
      buffer.drop (12 + bodyBytes.length) := by
    rw [← List.drop_drop, List.append_assoc, List.drop_left' hhl,
      List.drop_left' rfl]
  constructor
  · intro hflag
    have hH : ({ p.header with flags :=
        { p.header.flags with unencrypted := false } } : HeaderInfo) =
        p.header := headerFlags_eta _ _ hflag
    have hd12t : ((p.header.serialize C.TYPE bodyBytes.length ++ bodyBytes ++
        buffer.drop (12 + bodyBytes.length)).drop 12).take
          (12 + bodyBytes.length - 12) = bodyBytes := by
      rw [List.append_assoc, List.drop_left' hhl]
      rw [show 12 + bodyBytes.length - 12 = bodyBytes.length from by omega]
      exact List.take_left' rfl
    have htake12 : (p.header.serialize C.TYPE bodyBytes.length ++ bodyBytes ++
        buffer.drop (12 + bodyBytes.length)).take 12 =
        p.header.serialize C.TYPE bodyBytes.length := by
      rw [List.append_assoc]
      exact List.take_left' hhl
    have hserEq : Packet.serialize C S key p buffer =
        some (.ok (p.header.serialize C.TYPE bodyBytes.length ++
          xorBodyWithPad p.header key bodyBytes ++
          buffer.drop (12 + bodyBytes.length), 12 + bodyBytes.length)) := by
      unfold Packet.serialize
      rw [hH]
      rw [serializePacket_ok C S ⟨p.header, p.body⟩ buffer bodyBytes hsize
        hser hlt]
      dsimp only
      rw [hd12t]
      rw [if_neg (by omega)]
      rw [htake12, hdroplen]
    refine ⟨_, hserEq, ?_⟩
    have hwireEq : (p.header.serialize C.TYPE bodyBytes.length ++
        xorBodyWithPad p.header key bodyBytes ++
        buffer.drop (12 + bodyBytes.length)).take (12 + bodyBytes.length) =
        p.header.serialize C.TYPE bodyBytes.length ++
          xorBodyWithPad p.header key bodyBytes := by
      rw [List.append_assoc]
      rw [show 12 + bodyBytes.length =
        (p.header.serialize C.TYPE bodyBytes.length).length +
          bodyBytes.length from by rw [hhl]]
      rw [List.take_append]
      rw [List.take_left' (xorBodyWithPad_length _ _ _)]
    rw [hwireEq]
    have hlenw : (p.header.serialize C.TYPE bodyBytes.length ++
        xorBodyWithPad p.header key bodyBytes).length =
        12 + bodyBytes.length := by
      rw [List.length_append, hhl, xorBodyWithPad_length]
    unfold Packet.deserialize
    rw [if_pos (by rw [hlenw]; omega)]
    rw [List.take_left' hhl]
    rw [headerInfo_roundtrip p.header C.TYPE bodyBytes.length hsid]
    dsimp only
    rw [if_pos hflag]
    rw [if_neg (by rw [hlenw]; omega)]
    rw [List.drop_left' hhl]
    rw [xorBodyWithPad_involution]
    rw [deserializeBody_of_wire C D p.header bodyBytes p.body hne hlt hparse]
    dsimp only [Except.map]
    rw [hnew]
  · intro hflag
    have hH : ({ p.header with flags :=
        { p.header.flags with unencrypted := true } } : HeaderInfo) =
        p.header := headerFlags_eta _ _ hflag
    have hserEq : Packet.serializeUnobfuscated C S p buffer =
        .ok (p.header.serialize C.TYPE bodyBytes.length ++ bodyBytes ++
          buffer.drop (12 + bodyBytes.length), 12 + bodyBytes.length) := by
      unfold Packet.serializeUnobfuscated
      dsimp only
      rw [hH]
      rw [serializePacket_ok C S ⟨p.header, p.body⟩ buffer bodyBytes hsize
        hser hlt]
    refine ⟨_, hserEq, ?_⟩
    have hwireEq : (p.header.serialize C.TYPE bodyBytes.length ++ bodyBytes ++
        buffer.drop (12 + bodyBytes.length)).take (12 + bodyBytes.length) =
        p.header.serialize C.TYPE bodyBytes.length ++ bodyBytes := by
      rw [List.append_assoc]
      rw [show 12 + bodyBytes.length =
        (p.header.serialize C.TYPE bodyBytes.length).length +
          bodyBytes.length from by rw [hhl]]
      rw [List.take_append]
      rw [List.take_left' rfl]
    rw [hwireEq]
    have hlenw : (p.header.serialize C.TYPE bodyBytes.length ++
        bodyBytes).length = 12 + bodyBytes.length := by
      rw [List.length_append, hhl]
    unfold Packet.deserializeUnobfuscated
    rw [if_pos (by rw [hlenw]; omega)]
    rw [List.take_left' hhl]
    rw [headerInfo_roundtrip p.header C.TYPE bodyBytes.length hsid]
    dsimp only
    rw [if_pos hflag]
    rw [deserializeBody_of_wire C D p.header bodyBytes p.body hne hlt hparse]
    dsimp only [Except.map]
    rw [hnew]

/-- C1 witness: the round trip applied to the identity body codec over byte
lists, once in the obfuscated direction (`UNENCRYPTED` clear) and once in
cleartext (`UNENCRYPTED` set), on concrete single-byte-body packets and a
13-byte buffer. -/
theorem c1_packet_roundtrip_witness :
    (∃ out, Packet.serialize ⟨.accounting, fun _ => none⟩
        ⟨List.length, fun b => .ok b⟩ [1]
        ⟨⟨⟨.rfc8907, .default⟩, 1, ⟨false, false⟩, 0⟩, [0]⟩
        (List.replicate 13 0) = some (.ok (out, 13)) ∧
      Packet.deserialize ⟨.accounting, fun _ => none⟩ ⟨fun b => .ok b⟩ [1]
        (out.take 13) =
        some (.ok ⟨⟨⟨.rfc8907, .default⟩, 1, ⟨false, false⟩, 0⟩, [0]⟩)) ∧
    (∃ out, Packet.serializeUnobfuscated ⟨.accounting, fun _ => none⟩
        ⟨List.length, fun b => .ok b⟩
        ⟨⟨⟨.rfc8907, .default⟩, 2, ⟨true, false⟩, 0⟩, [0]⟩
        (List.replicate 13 0) = .ok (out, 13) ∧
      Packet.deserializeUnobfuscated ⟨.accounting, fun _ => none⟩
        ⟨fun b => .ok b⟩ (out.take 13) =
        some (.ok ⟨⟨⟨.rfc8907, .default⟩, 2, ⟨true, false⟩, 0⟩, [0]⟩)) :=
  ⟨(c1_packet_roundtrip (List Nat) ⟨.accounting, fun _ => none⟩
      ⟨List.length, fun b => .ok b⟩ ⟨fun b => .ok b⟩ [1]
      ⟨⟨⟨.rfc8907, .default⟩, 1, ⟨false, false⟩, 0⟩, [0]⟩
      (List.replicate 13 0) [0] rfl rfl (by decide) (by decide) (by decide)
      rfl (by decide)).1 rfl,
   (c1_packet_roundtrip (List Nat) ⟨.accounting, fun _ => none⟩
      ⟨List.length, fun b => .ok b⟩ ⟨fun b => .ok b⟩ [1]
      ⟨⟨⟨.rfc8907, .default⟩, 2, ⟨true, false⟩, 0⟩, [0]⟩
      (List.replicate 13 0) [0] rfl rfl (by decide) (by decide) (by decide)
      rfl (by decide)).2 rfl⟩

end Tacacs




